import Mathlib

/-!
Verification development for SaneC (saneex.c - pure C99 exceptions via
setjmp/longjmp, and saneobj.c - a minimal single-inheritance object system).

The definitions below are a shallow embedding of the C sources:

* saneex.c keeps thread-local globals: `contexts[]` (a stack of
  `struct TryContext`, of which only the `caught` counter carries state we
  must track; the `jmp_buf` is the control-transfer mechanism itself and is
  represented by the explicit control flow of the model), `nextContext`,
  `_sxLastJumpCode`, `trace[]` / `nextTrace`, and `hasUncatchable`.
  These become the fields of `SxState`; `contexts` is a `List Nat` of the
  `caught` counters, head = innermost frame.
* calls to `free()` on a trace entry extra payload are logged in
  `freedExtras`; calls to `sjFree()` on object memory are logged in
  `heapFreed`; invocations of `vt->del` are logged in `dtorCalled`.
  Payloads and heap blocks are identified by abstract `Nat` addresses.
* `longjmp`/`exit` become the `Transfer` type returned by `_throw`.
* the `try { } catch (n) { } catchall { } finally { } endtry` macro
  expansion (an `if (_sxEnterTry2(setjmp(*_sxEnterTry()))) ... else if
  (_sxLastJumpCode == n && _sxSetCaught(0)) ... else if (_sxSetCaught(0))
  ... if (_sxSetCaught(1)) ... _sxLeaveTry()`) becomes the step function
  `runSx`: every longjmp back into the frame re-enters the chain, which is
  the `Phase.entry k` case; the trailing `finally`-`endtry` pair is
  `Phase.finalize`.  `runSx` takes fuel because a block's chain can be
  re-entered by throws from its body, its claiming catch and its finally;
  each re-entry consumes one unit and at most seven units are ever needed,
  so `runRegion` supplies 16.
-/

/-- One `struct SxTraceEntry`.  `code` and `uncatchable` are kept exactly;
`extra` is the optional owned payload pointer (an abstract address).  The
`file`/`line`/`message` fields carry no control-flow significance (note that
`sxAddTraceEntry`'s guard `entry.file || entry.message || entry.extra` is
always true in C because `file` and `message` are arrays, which decay to
non-null pointers), so they are not modelled. -/
structure SxTraceEntry where
  code : Int
  uncatchable : Bool
  extra : Option Nat
deriving DecidableEq, Repr

/-- The thread-local state of saneex.c. -/
structure SxState where
  /-- `contexts[0..nextContext-1].caught`, head = `contexts[nextContext-1]`
  (the innermost frame). -/
  contexts : List Nat
  /-- `_sxLastJumpCode`. -/
  lastJumpCode : Int
  /-- `trace[0..nextTrace-1]`, index 0 first. -/
  trace : List SxTraceEntry
  /-- `hasUncatchable`. -/
  hasUncatchable : Bool
  /-- log of `free()`d trace-entry extras, in call order. -/
  freedExtras : List Nat
  /-- log of `sjFree()`d object blocks, in call order. -/
  heapFreed : List Nat
  /-- log of objects on which `vt->del` was invoked, in call order. -/
  dtorCalled : List Nat
deriving DecidableEq, Repr

/-- A non-local control transfer out of straight-line code: a `longjmp` to
the innermost frame carrying a jump code, or a process `exit`. -/
inductive Transfer where
  | jump (code : Int)
  | exitP (status : Int)
deriving DecidableEq, Repr

/-- `caught` of the innermost frame, `contexts[nextContext - 1].caught`. -/
def topCaught (s : SxState) : Nat :=
  s.contexts.headD 0

/-- Replace the innermost frame's `caught` counter. -/
def setTopCaught (s : SxState) (c : Nat) : SxState :=
  { s with contexts := match s.contexts with
                       | [] => []
                       | _ :: t => c :: t }

/-- `MAX_TRACE`. -/
def MAX_TRACE : Nat := 20

/-- `MAX_TRY_CATCH`. -/
def MAX_TRY_CATCH : Nat := 100

/-- `FINALLY_THRESHOLD`. -/
def FINALLY_THRESHOLD : Nat := 50

/-- `EXIT_UNCAUGHT`. -/
def EXIT_UNCAUGHT : Int := 200

/-- The jump-code normalization at the `longjmp` site of `_throw`:
`code > 0 ? code : 1`. -/
def normCode (c : Int) : Int :=
  if 0 < c then c else 1

/-- The clamp at the uncaught-exception `exit` of `_throw`:
`exitCode > 254 ? 254 : exitCode`. -/
def clampExit (c : Int) : Int :=
  if 254 < c then 254 else c

/-- `sxAddTraceEntry`: append the entry if the trace is not full.  (The C
guard `entry.file || entry.message || entry.extra` is always true because
`file` decays to a non-null pointer, so only the capacity check remains.) -/
def sxAddTraceEntry (s : SxState) (e : SxTraceEntry) : SxState :=
  if s.trace.length < MAX_TRACE then { s with trace := s.trace ++ [e] } else s

/-- `clearTrace`: reset `hasUncatchable`, free every entry's `extra`
(walking from the last entry down to index 0) and empty the trace. -/
def clearTrace (s : SxState) : SxState :=
  { s with hasUncatchable := false
           trace := []
           freedExtras := s.freedExtras ++ s.trace.reverse.filterMap (fun e => e.extra) }

/-- The state effect of `_throw` before its control transfer: record the
entry (`sxAddTraceEntry`), then make `hasUncatchable` sticky. -/
def _throwState (s : SxState) (e : SxTraceEntry) : SxState :=
  { sxAddTraceEntry s e with
    hasUncatchable := (sxAddTraceEntry s e).hasUncatchable || e.uncatchable }

/-- `_throw`: record the entry, make `hasUncatchable` sticky, then either
exit (no enclosing frame; status `EXIT_UNCAUGHT + code` clamped to 254) or
longjmp to the innermost frame with the normalized code. -/
def _throw (s : SxState) (e : SxTraceEntry) : SxState × Transfer :=
  if (_throwState s e).contexts.length < 1 then
    (_throwState s e, Transfer.exitP (clampExit (EXIT_UNCAUGHT + e.code)))
  else
    (_throwState s e, Transfer.jump (normCode e.code))

/-- `sxThrow`: clear the trace of the previous exception, then `_throw`. -/
def sxThrow (s : SxState) (e : SxTraceEntry) : SxState × Transfer :=
  _throw (clearTrace s) e

/-- `sxRethrow`: the `sxAssert` guard (`nextContext > 0 && !_sxLastJumpCode
&& contexts[nextContext-1].caught < FINALLY_THRESHOLD`) exits with
`EXIT_OUTSIDE_RETHROW` (252) when violated; otherwise an entry code below 1
is replaced by `_sxLastJumpCode` and the entry is `_throw`n. -/
def sxRethrow (s : SxState) (e : SxTraceEntry) : SxState × Transfer :=
  if 0 < s.contexts.length ∧ s.lastJumpCode = 0 ∧ topCaught s < FINALLY_THRESHOLD then
    _throw s (if e.code < 1 then { e with code := s.lastJumpCode } else e)
  else
    (s, Transfer.exitP 252)

/-- One catch clause of a protected region: `catch(n)` or `catchall`. -/
inductive Clause where
  | catchC (n : Int)
  | all
deriving DecidableEq, Repr

/-- Whether the clause's condition prefix holds for pending code `k`:
`catch(n)` tests `_sxLastJumpCode == n` before evaluating `_sxSetCaught(0)`
(short-circuit), `catchall` always evaluates it. -/
def claMatches (k : Int) : Clause → Bool
  | Clause.catchC n => k == n
  | Clause.all => true

/-- Index of the first clause whose condition prefix holds for `k`. -/
def firstMatchIdx (k : Int) : List Clause → Option Nat
  | [] => none
  | cl :: rest =>
    if claMatches k cl then some 0 else (firstMatchIdx k rest).map (· + 1)

/-- The `else if` chain of catch clauses, evaluated left to right with the
frame's `caught` counter and the pending `_sxLastJumpCode = k`.  Each clause
whose condition prefix holds evaluates `_sxSetCaught(0)`, incrementing
`caught`; the increment that reaches exactly 1 claims the frame (resets
`_sxLastJumpCode` to 0, returns 1, so that clause's body runs and the chain
stops).  Returns (index of the claiming clause if any, final `caught`,
final `_sxLastJumpCode`). -/
def dispatch : List Clause → Nat → Int → Option Nat × Nat × Int
  | [], caught, k => (none, caught, k)
  | cl :: rest, caught, k =>
    if claMatches k cl then
      if caught + 1 = 1 then
        (some 0, 1, 0)
      else
        match dispatch rest (caught + 1) k with
        | (some i, c2, k2) => (some (i + 1), c2, k2)
        | (none, c2, k2) => (none, c2, k2)
    else
      match dispatch rest caught k with
      | (some i, c2, k2) => (some (i + 1), c2, k2)
      | (none, c2, k2) => (none, c2, k2)

/-- Observable events of one protected region's execution. -/
inductive Event where
  | bodyRun
  | catchRun (i : Nat)
  | finallyRun
deriving DecidableEq, Repr

/-- What a block (try body, catch body, finally body) does in the model:
optionally some `sjFree` calls, then either complete normally, `throw`
(i.e. `sxThrow`) or `rethrow` (i.e. `sxRethrow`). -/
inductive ActKind where
  | done
  | throwNew (e : SxTraceEntry)
  | reth (e : SxTraceEntry)
deriving DecidableEq, Repr

/-- A block's behavior: `frees` are the `sjFree` calls it performs before
finishing with `kind`. -/
structure Act where
  frees : List Nat
  kind : ActKind
deriving DecidableEq, Repr

/-- Run a block's behavior: log its frees, then perform its final action.
`none` means the block completed normally. -/
def performAct (s : SxState) (a : Act) : SxState × Option Transfer :=
  let s1 := { s with heapFreed := s.heapFreed ++ a.frees }
  match a.kind with
  | ActKind.done => (s1, none)
  | ActKind.throwNew e =>
    let r := sxThrow s1 e
    (r.1, some r.2)
  | ActKind.reth e =>
    let r := sxRethrow s1 e
    (r.1, some r.2)

/-- A protected region: `try { bodyAct } clauses... [finally { finallyAct }]
endtry`.  `catchAct` is the body of whichever clause claims the frame (only
one can run per execution). -/
structure Region where
  bodyAct : Act
  clauses : List Clause
  catchAct : Act
  hasFinally : Bool
  finallyAct : Act
deriving DecidableEq, Repr

/-- How one region's execution ends: fall through `endtry` normally,
propagate a jump code to the next enclosing frame, or exit the process. -/
inductive Outcome where
  | normal
  | thrownOut (code : Int)
  | exited (status : Int)
deriving DecidableEq, Repr

/-- Where control (re-)enters the region's statement chain: at the
`if (_sxEnterTry2(setjmp(...)))` condition with jump code `k` (0 on the
first entry, the longjmp payload afterwards), or at the trailing
`finally`/`endtry` pair. -/
inductive Phase where
  | entry (k : Int)
  | finalize
deriving DecidableEq, Repr

/-- `_sxLeaveTry`: pop the frame (`endtry` without a matching `try` exits
253); if `hasUncatchable` or `_sxLastJumpCode` is nonzero, append the
"rethrown by ENDTRY" entry (code `_sxLastJumpCode`, no extra, not itself
marked uncatchable) and `_throw` it in the popped state; otherwise leaving
is silent. -/
def leaveTry (s : SxState) (ev : List Event) : SxState × Outcome × List Event :=
  match s.contexts with
  | [] => (s, Outcome.exited 253, ev)
  | _ :: rest =>
    let s1 := { s with contexts := rest }
    if s1.hasUncatchable ∨ s1.lastJumpCode ≠ 0 then
      let r := _throw s1 { code := s1.lastJumpCode, uncatchable := false, extra := none }
      match r.2 with
      | Transfer.jump k => (r.1, Outcome.thrownOut k, ev)
      | Transfer.exitP n => (r.1, Outcome.exited n, ev)
    else
      (s1, Outcome.normal, ev)

/-- One (re-)entry into the region's chain.  `Phase.entry k` models
`_sxEnterTry2(k)`: the runaway-loop assert (`caught < 1000`, exit 250),
`_sxLastJumpCode = k`, then the try body (k = 0) or the catch chain
(k ≠ 0); a `Transfer.jump` from a block re-enters the chain.
`Phase.finalize` models the `finally` macro (`_sxSetCaught(1)`: increment
`caught`; run the body only if the result is below `FINALLY_THRESHOLD`,
setting `caught` to the threshold) followed by `_sxLeaveTry`. -/
def runSx : Nat → SxState → Region → Phase → List Event → SxState × Outcome × List Event
  | 0, s, _, _, ev => (s, Outcome.exited 999, ev)
  | fuel + 1, s, r, Phase.entry k, ev =>
    if 1000 ≤ topCaught s then
      (s, Outcome.exited 250, ev)
    else
      let s1 := { s with lastJumpCode := k }
      if k = 0 then
        let ev1 := ev ++ [Event.bodyRun]
        let pa := performAct s1 r.bodyAct
        match pa.2 with
        | none => runSx fuel pa.1 r Phase.finalize ev1
        | some (Transfer.exitP n) => (pa.1, Outcome.exited n, ev1)
        | some (Transfer.jump k2) => runSx fuel pa.1 r (Phase.entry k2) ev1
      else
        let d := dispatch r.clauses (topCaught s1) k
        let s2 := { setTopCaught s1 d.2.1 with lastJumpCode := d.2.2 }
        match d.1 with
        | some i =>
          let ev1 := ev ++ [Event.catchRun i]
          let pa := performAct s2 r.catchAct
          match pa.2 with
          | none => runSx fuel pa.1 r Phase.finalize ev1
          | some (Transfer.exitP n) => (pa.1, Outcome.exited n, ev1)
          | some (Transfer.jump k2) => runSx fuel pa.1 r (Phase.entry k2) ev1
        | none => runSx fuel s2 r Phase.finalize ev
  | fuel + 1, s, r, Phase.finalize, ev =>
    if r.hasFinally then
      let c := topCaught s + 1
      if c < FINALLY_THRESHOLD then
        let s1 := setTopCaught s FINALLY_THRESHOLD
        let ev1 := ev ++ [Event.finallyRun]
        let pa := performAct s1 r.finallyAct
        match pa.2 with
        | none => leaveTry pa.1 ev1
        | some (Transfer.exitP n) => (pa.1, Outcome.exited n, ev1)
        | some (Transfer.jump k2) => runSx fuel pa.1 r (Phase.entry k2) ev1
      else
        leaveTry (setTopCaught s c) ev
    else
      leaveTry s ev

/-- One full execution of a protected region from state `s`: `_sxEnterTry`
(nesting-limit assert, exit 254; push a frame with `caught = 0`), then the
chain from its first entry with jump code 0.  Fuel 16 strictly exceeds the
longest possible entry chain (see `runSx`). -/
def runRegion (s : SxState) (r : Region) : SxState × Outcome × List Event :=
  if MAX_TRY_CATCH ≤ s.contexts.length then
    (s, Outcome.exited 254, [])
  else
    runSx 16 { s with contexts := 0 :: s.contexts } r (Phase.entry 0) []

/-- Is this event the run of a catch clause body? -/
def isCatchRun : Event → Bool
  | Event.catchRun _ => true
  | _ => false

/-- Number of catch-clause bodies run during a region execution. -/
def countCatchRuns (ev : List Event) : Nat :=
  (ev.filter isCatchRun).length

/-!
The saneobj.c model.  A class descriptor (`CLASS_vt`) holds a `parent`
pointer (NULL exactly for `vtObject()`, whose static initializer is
`{NULL, {...}}`), a `className`, and its function-pointer region: the C
walks it byte-wise from `new` up to `size - sizeof(void *)`; the model
indexes it slot-wise, so `slots[0]` is `new`, `slots[1]` is `del` and
further indices are the class's declared method slots.  A slot value is the
address of the implementation body (an abstract positive `Nat`), or 0 for
the C's NULL (an abstract method).  `linkvt` copies the parent's fragment
and then overwrites individual slots, so a child's `slots` list extends its
parent's with inherited values kept at the same indices; the guard
`vt->size - ptrSize >= vtOffset` of the chain walk becomes
`idx < parent.slots.length`.  A descriptor is compared by identity
(pointer equality in C); the model's descriptors are built as distinct
terms, so structural equality coincides with identity here. -/
inductive Vt : Type where
  | root (className : String) (slots : List Nat)
  | child (parent : Vt) (className : String) (slots : List Nat)
deriving DecidableEq, Repr

/-- The `parent` field: NULL (`none`) exactly for the root. -/
def Vt.parent : Vt → Option Vt
  | Vt.root _ _ => none
  | Vt.child p _ _ => some p

/-- The `className` field. -/
def Vt.className : Vt → String
  | Vt.root n _ => n
  | Vt.child _ n _ => n

/-- The method-slot region (see `Vt`). -/
def Vt.slots : Vt → List Nat
  | Vt.root _ sl => sl
  | Vt.child _ _ sl => sl

/-- A C pointer value as compared inside `sjInheritedMethod`: NULL, the
address of a function body, or the address of a method slot inside a
descriptor (identified by class name and slot index - each class has one
process-wide descriptor).  A slot's stored value is a function address (or
NULL), so it never compares equal to the address of a slot; this
distinction is what `Ptr` keeps. -/
inductive Ptr where
  | null
  | code (a : Nat)
  | slotRef (cls : String) (idx : Nat)
deriving DecidableEq, Repr

/-- Compare a slot's stored value (0 = NULL) with a pointer
(`*ptr == methodBody` in C). -/
def slotEqPtr (v : Nat) (p : Ptr) : Bool :=
  match p with
  | Ptr.null => v = 0
  | Ptr.code a => v = a
  | Ptr.slotRef _ _ => false

/-- Read `* (void **) vtMethod` as a pointer value. -/
def natToPtr (v : Nat) : Ptr :=
  if v = 0 then Ptr.null else Ptr.code v

/-- `struct SjInheritedMethod`: a descriptor reference and the `method`
pointer field (a slot address on a "found" result, NULL on an abstract or
chain-end result; `sjBaseMethod` also stores a function address in it). -/
structure SjInheritedMethodR where
  vt : Option Vt
  method : Ptr
deriving DecidableEq, Repr

/-- The `do`/`while` loop of `sjInheritedMethod`: at each descriptor read
the slot at `idx`; once `methodBody` has been seen (`found`), a NULL slot
means "declared abstract here" (`{vt, NULL}`) and a different non-NULL
value is the next-up implementation (`{vt, ptr}`); the walk continues while
a parent exists and still covers the slot, and past the end a seen
`methodBody` yields `{NULL, NULL}` while a never-seen one is the
"methodBody does not belong to any vt in the chain" error (an sxThrow in
C, an `Except.error` here). -/
def inhScan : Vt → Nat → Ptr → Bool → Except String SjInheritedMethodR
  | vt@(Vt.root _ slots), idx, methodBody, found =>
    if found ∧ slots.getD idx 0 = 0 then
      Except.ok ⟨some vt, Ptr.null⟩
    else if found ∧ ¬ slotEqPtr (slots.getD idx 0) methodBody then
      Except.ok ⟨some vt, Ptr.slotRef vt.className idx⟩
    else if found ∨ slotEqPtr (slots.getD idx 0) methodBody then
      Except.ok ⟨none, Ptr.null⟩
    else
      Except.error "sjInheritedMethod: methodBody does not belong to any vt in the chain."
  | vt@(Vt.child p _ slots), idx, methodBody, found =>
    if found ∧ slots.getD idx 0 = 0 then
      Except.ok ⟨some vt, Ptr.null⟩
    else if found ∧ ¬ slotEqPtr (slots.getD idx 0) methodBody then
      Except.ok ⟨some vt, Ptr.slotRef vt.className idx⟩
    else if idx < p.slots.length then
      inhScan p idx methodBody (found || slotEqPtr (slots.getD idx 0) methodBody)
    else if found ∨ slotEqPtr (slots.getD idx 0) methodBody then
      Except.ok ⟨none, Ptr.null⟩
    else
      Except.error "sjInheritedMethod: methodBody does not belong to any vt in the chain."

/-- `sjInheritedMethod(vt, vtMethod, methodBody)` with `vtMethod` given as
the slot index inside `vt` (the C argument is the raw address `vt` plus
that offset).  The precondition check rejects an out-of-range offset
(`vtOffset > vt->size - ptrSize`) and a NULL `methodBody`. -/
def sjInheritedMethod (vt : Vt) (idx : Nat) (methodBody : Ptr) :
    Except String SjInheritedMethodR :=
  if vt.slots.length ≤ idx ∨ methodBody = Ptr.null then
    Except.error "sjInheritedMethod: vtMethod does not belong to vt."
  else
    inhScan vt idx methodBody false

/-- The `while (1)` loop of `sjBaseMethod`.  Each iteration passes
`lastInh.method` - which after the first iteration is a slot address, not a
function address - as the `methodBody` argument; a slot address never
matches a slot value, so a second "found" iteration always errors and the
loop runs at most two and a fraction iterations; fuel 8 is never
exhausted. -/
def sjBaseMethodGo : Nat → Vt → Nat → SjInheritedMethodR → Except String SjInheritedMethodR
  | 0, _, _, _ => Except.error "unreachable: the loop iterates at most twice"
  | fuel + 1, vt, idx, last =>
    match sjInheritedMethod vt idx last.method with
    | Except.error msg => Except.error msg
    | Except.ok inh =>
      if inh.method = Ptr.null then
        match inh.vt with
        | some _ => Except.ok inh
        | none => Except.ok last
      else
        sjBaseMethodGo fuel vt idx inh

/-- `sjBaseMethod(vt, vtMethod)`: start from `{vt, * (void **) vtMethod}`
and repeatedly ask for the inherited method. -/
def sjBaseMethod (vt : Vt) (idx : Nat) : Except String SjInheritedMethodR :=
  sjBaseMethodGo 8 vt idx ⟨some vt, natToPtr (vt.slots.getD idx 0)⟩

/-- `sjHasClass(obj, vt)` on the object's descriptor: the `do`/`while`
walk comparing each chain node with the target, stopping at a NULL
parent. -/
def sjHasClassVt : Vt → Vt → Bool
  | Vt.root n sl, target => Vt.root n sl == target
  | Vt.child p n sl, target => (Vt.child p n sl == target) || sjHasClassVt p target

/-- The ancestor chain of a descriptor, closest first, ending at the
root. -/
def chain : Vt → List Vt
  | Vt.root n sl => [Vt.root n sl]
  | Vt.child p n sl => Vt.child p n sl :: chain p

/-- `sjCountParents`: `res = -1; do res++; while (vt = vt->parent);` -
the number of non-NULL parent links above `vt`. -/
def sjCountParents : Vt → Nat
  | Vt.root _ _ => 0
  | Vt.child p _ _ => sjCountParents p + 1

/-- `vtObject()`: static initializer `{NULL, {sizeof(Object_vt),
sizeof(Object), "Object", Object_new, Object_del}}` - the parent pointer
is NULL.  Slot 0 is `new` (body address 10), slot 1 is `del` (body
address 11). -/
def vtObject : Vt := Vt.root "Object" [10, 11]

/-- A three-level test hierarchy under `vtObject` for `sjBaseMethod`:
`Root` first declares method slot `m` at index 2 and leaves it NULL
(abstract).  `linkvt(Root, Object)` copies Object's fragment and installs
`Root_new` (body 20); `del` stays inherited (11). -/
def vtRoot : Vt := Vt.child vtObject "Root" [20, 11, 0]

/-- `Mid` extends `Root` without overriding `m`: `linkvt` copies Root's
fragment (so `m` stays NULL) and installs `Mid_new` (body 30). -/
def vtMid : Vt := Vt.child vtRoot "Mid" [30, 11, 0]

/-- `Leaf` extends `Mid`, installs `Leaf_new` (body 40) and overrides `m`
with the body at address `a` (0 = does not override, keeping it NULL). -/
def vtLeaf (a : Nat) : Vt := Vt.child vtMid "Leaf" [40, 11, a]

/-- The slot index of method `m` in the test hierarchy. -/
def mIdx : Nat := 2

/-!
The `sjNew` model.  `sjNew(ctor, params, size, file, line)` allocates,
then runs `o = ctor(allocated, params)` inside
`try { ... } catchall { sjFree(allocated); sxRethrow(...); } endtry`,
and finally checks the constructor's return value.  The constructor's
behavior is abstracted by `CtorBeh`: it either returns a pointer (the
input block, a different object, or NULL) or throws.  Whether a returned
different object extends Autoref (`sjHasClass(o, vtAutoref())`) is
abstracted by the `retExtendsAutoref` predicate.  The `SJ_TRACE_LIFE`
block is compiled out by default and not modelled. -/
inductive CtorBeh where
  | ret (o : Option Nat)
  | thr (e : SxTraceEntry)
deriving DecidableEq, Repr

/-- How a call to `sjNew` ends for the caller. -/
inductive SjNewOut where
  | ret (p : Nat)
  | thrownOut (code : Int)
  | exited (status : Int)
deriving DecidableEq, Repr

/-- The protected region inside `sjNew` around the constructor call for an
allocated block `a`: a single `catchall` whose body is
`sjFree(allocated); sxRethrow(sxprintf(makeEx(file, line), ...))` - the
rethrown entry has code 0 (`makeEx` zero-initializes `code`), no extra.
No finally clause. -/
def ctorRegion (beh : CtorBeh) (a : Nat) : Region :=
  { bodyAct := { frees := [],
                 kind := match beh with
                         | CtorBeh.ret _ => ActKind.done
                         | CtorBeh.thr e => ActKind.throwNew e }
    clauses := [Clause.all]
    catchAct := { frees := [a], kind := ActKind.reth { code := 0, uncatchable := false, extra := none } }
    hasFinally := false
    finallyAct := { frees := [], kind := ActKind.done } }

/-- Repackage a `Transfer` out of `sjNew`'s own code (its throws outside
the region) as the caller-visible result. -/
def ofTransfer : Transfer → SjNewOut
  | Transfer.jump c => SjNewOut.thrownOut c
  | Transfer.exitP n => SjNewOut.exited n

/-- `sjNew`: allocation failure throws `"sjAlloc(%d) error."` (entry code
0, from `makeEx`); then the constructor runs in `ctorRegion`; if the
region is left normally and the constructor returned a block different
from `allocated`, `allocated` is freed and NULL or a non-Autoref result
is thrown (`"ctor(%p) returned NULL."` / `"... does not extend
Autoref."`); the non-Autoref object itself is deliberately not freed.
The `.exited 999` arm is unreachable: a throwing constructor can never
let the region end normally. -/
def sjNew (s0 : SxState) (allocResult : Option Nat) (beh : CtorBeh)
    (retExtendsAutoref : Nat → Bool) : SxState × SjNewOut :=
  match allocResult with
  | none =>
    let t := sxThrow s0 { code := 0, uncatchable := false, extra := none }
    (t.1, ofTransfer t.2)
  | some a =>
    let res := runRegion s0 (ctorRegion beh a)
    match res.2.1 with
    | Outcome.exited n => (res.1, SjNewOut.exited n)
    | Outcome.thrownOut c => (res.1, SjNewOut.thrownOut c)
    | Outcome.normal =>
      match beh with
      | CtorBeh.thr _ => (res.1, SjNewOut.exited 999)
      | CtorBeh.ret o =>
        if o = some a then
          (res.1, SjNewOut.ret a)
        else
          match o with
          | none =>
            let s2 := { res.1 with heapFreed := res.1.heapFreed ++ [a] }
            let t := sxThrow s2 { code := 0, uncatchable := false, extra := none }
            (t.1, ofTransfer t.2)
          | some p =>
            let s2 := { res.1 with heapFreed := res.1.heapFreed ++ [a] }
            if retExtendsAutoref p then
              (s2, SjNewOut.ret p)
            else
              let t := sxThrow s2 { code := 0, uncatchable := false, extra := none }
              (t.1, ofTransfer t.2)

/-- How many catch bodies can still run from a given phase: a claim needs
`_sxSetCaught` to move `caught` from 0 to 1, so at most one from an entry
on a fresh frame and none otherwise; the finalize stage never claims. -/
def catchBudget : Phase → SxState → Nat
  | Phase.entry _, s => if topCaught s = 0 then 1 else 0
  | Phase.finalize, _ => 0

-- Sanity checks on concrete runs (mirroring saneex-test.c cases).
example :
    (runRegion ⟨[], 0, [], false, [], [], []⟩
      ⟨⟨[], ActKind.done⟩, [], ⟨[], ActKind.done⟩, false, ⟨[], ActKind.done⟩⟩).2.1
      = Outcome.normal := by decide

example :
    (runRegion ⟨[], 0, [], false, [], [], []⟩
      ⟨⟨[], ActKind.throwNew ⟨1, false, none⟩⟩, [Clause.all], ⟨[], ActKind.done⟩,
        true, ⟨[], ActKind.done⟩⟩).2.2
      = [Event.bodyRun, Event.catchRun 0, Event.finallyRun] := by decide

example :
    (runRegion ⟨[0], 0, [], false, [], [], []⟩
      ⟨⟨[], ActKind.throwNew ⟨2, false, none⟩⟩, [Clause.catchC 1], ⟨[], ActKind.done⟩,
        true, ⟨[], ActKind.done⟩⟩).2.1
      = Outcome.thrownOut 2 := by decide

theorem normCode_pos (c : Int) : 1 ≤ normCode c := by
  unfold normCode
  split <;> omega

theorem normCode_ne_zero (c : Int) : normCode c ≠ 0 := by
  have := normCode_pos c
  omega

theorem normCode_idem (c : Int) : 1 ≤ c → normCode c = c := by
  intro h
  unfold normCode
  split <;> omega

/-- Characterization of a fresh arbitration (`caught = 0`): exactly the
first clause whose condition holds claims the frame, `caught` becomes 1 and
the pending code is reset to 0; with no matching clause nothing changes. -/
theorem dispatch_zero (cl : List Clause) (k : Int) :
    dispatch cl 0 k =
      match firstMatchIdx k cl with
      | some i => (some i, 1, 0)
      | none => (none, 0, k) := by
  induction cl with
  | nil => simp [dispatch, firstMatchIdx]
  | cons c rest ih =>
    by_cases h : claMatches k c
    · simp [dispatch, firstMatchIdx, h]
    · simp only [dispatch, firstMatchIdx, h, if_neg, Bool.false_eq_true, ite_false, ih]
      cases hfm : firstMatchIdx k rest <;> simp [hfm]


/-- With `caught` already positive no clause can claim; each clause whose
condition holds bumps `caught` by one, so the final counter stays between
`c` and `c + cl.length`, and the pending code is untouched. -/
theorem dispatch_pos (cl : List Clause) (k : Int) :
    ∀ c, 1 ≤ c →
      (dispatch cl c k).1 = none ∧
      c ≤ (dispatch cl c k).2.1 ∧
      (dispatch cl c k).2.1 ≤ c + cl.length ∧
      (dispatch cl c k).2.2 = k := by
  induction cl with
  | nil => intro c hc; simp [dispatch]
  | cons cla rest ih =>
    intro c hc
    by_cases h : claMatches k cla
    · have hne : ¬ (c + 1 = 1) := by omega
      obtain ⟨h1, h2, h3, h4⟩ := ih (c + 1) (by omega)
      simp only [dispatch, h, if_true, if_neg hne]
      rcases hd : dispatch rest (c + 1) k with ⟨i?, c2, k2⟩
      rw [hd] at h1 h2 h3 h4
      simp only at h1 h2 h3 h4
      subst h1
      dsimp only
      simp only [List.length_cons]
      exact ⟨trivial, by omega, by omega, by omega⟩
    · obtain ⟨h1, h2, h3, h4⟩ := ih c hc
      simp only [dispatch, h, Bool.false_eq_true, ite_false]
      rcases hd : dispatch rest c k with ⟨i?, c2, k2⟩
      rw [hd] at h1 h2 h3 h4
      simp only at h1 h2 h3 h4
      subst h1
      dsimp only
      simp only [List.length_cons]
      exact ⟨trivial, by omega, by omega, by omega⟩

/-- A claim can only happen on a fresh frame (`caught = 0`); it yields
`caught = 1` and pending code 0, and the claiming index carries a clause
whose condition holds. -/
theorem dispatch_claim (cl : List Clause) (k : Int) :
    ∀ c i c2 k2, dispatch cl c k = (some i, c2, k2) →
      c = 0 ∧ c2 = 1 ∧ k2 = 0 ∧
      ∃ cla, cl[i]? = some cla ∧ claMatches k cla = true := by
  induction cl with
  | nil => intro c i c2 k2 h; simp [dispatch] at h
  | cons cla rest ih =>
    intro c i c2 k2 h
    by_cases hm : claMatches k cla
    · by_cases hc1 : c + 1 = 1
      · simp only [dispatch, hm, if_true, hc1, ite_true, Prod.mk.injEq,
          Option.some.injEq] at h
        obtain ⟨hi, hc2, hk2⟩ := h
        subst hi hc2 hk2
        exact ⟨by omega, rfl, rfl, cla, by simp, hm⟩
      · simp only [dispatch, hm, if_true, if_neg hc1] at h
        rcases hd : dispatch rest (c + 1) k with ⟨i?, c3, k3⟩
        rw [hd] at h
        cases i? with
        | some j =>
          obtain ⟨h0, _, _, _⟩ := ih (c + 1) j c3 k3 hd
          omega
        | none => simp at h
    · simp only [dispatch, hm, Bool.false_eq_true, ite_false] at h
      rcases hd : dispatch rest c k with ⟨i?, c3, k3⟩
      rw [hd] at h
      cases i? with
      | some j =>
        simp only [Prod.mk.injEq, Option.some.injEq] at h
        obtain ⟨hi, hc3, hk3⟩ := h
        obtain ⟨h0, h1, h2, cla2, hg, hmm⟩ := ih c j c3 k3 hd
        subst hi hc3 hk3
        exact ⟨h0, h1, h2, cla2, by simpa using hg, hmm⟩
      | none => simp at h

theorem sxAddTraceEntry_state (s : SxState) (e : SxTraceEntry) :
    (sxAddTraceEntry s e).contexts = s.contexts ∧
    (sxAddTraceEntry s e).lastJumpCode = s.lastJumpCode ∧
    (sxAddTraceEntry s e).heapFreed = s.heapFreed ∧
    (sxAddTraceEntry s e).dtorCalled = s.dtorCalled := by
  unfold sxAddTraceEntry
  split <;> simp

theorem _throwState_state (s : SxState) (e : SxTraceEntry) :
    (_throwState s e).contexts = s.contexts ∧
    (_throwState s e).lastJumpCode = s.lastJumpCode ∧
    (_throwState s e).heapFreed = s.heapFreed ∧
    (_throwState s e).dtorCalled = s.dtorCalled := by
  obtain ⟨h1, h2, h3, h4⟩ := sxAddTraceEntry_state s e
  exact ⟨h1, h2, h3, h4⟩

theorem _throw_state (s : SxState) (e : SxTraceEntry) :
    ((_throw s e).1).contexts = s.contexts ∧
    ((_throw s e).1).lastJumpCode = s.lastJumpCode ∧
    ((_throw s e).1).heapFreed = s.heapFreed ∧
    ((_throw s e).1).dtorCalled = s.dtorCalled := by
  obtain ⟨h1, h2, h3, h4⟩ := _throwState_state s e
  unfold _throw
  split
  · exact ⟨h1, h2, h3, h4⟩
  · exact ⟨h1, h2, h3, h4⟩

theorem _throw_jump (s : SxState) (e : SxTraceEntry) (h : s.contexts ≠ []) :
    (_throw s e).2 = Transfer.jump (normCode e.code) := by
  unfold _throw
  obtain ⟨h1, _, _, _⟩ := _throwState_state s e
  rw [if_neg]
  rw [h1]
  cases hc : s.contexts with
  | nil => exact absurd hc h
  | cons a t => simp

theorem clearTrace_state (s : SxState) :
    (clearTrace s).contexts = s.contexts ∧
    (clearTrace s).lastJumpCode = s.lastJumpCode ∧
    (clearTrace s).heapFreed = s.heapFreed ∧
    (clearTrace s).dtorCalled = s.dtorCalled :=
  ⟨rfl, rfl, rfl, rfl⟩

theorem sxThrow_state (s : SxState) (e : SxTraceEntry) :
    ((sxThrow s e).1).contexts = s.contexts ∧
    ((sxThrow s e).1).lastJumpCode = s.lastJumpCode ∧
    ((sxThrow s e).1).heapFreed = s.heapFreed ∧
    ((sxThrow s e).1).dtorCalled = s.dtorCalled := by
  obtain ⟨h1, h2, h3, h4⟩ := _throw_state (clearTrace s) e
  exact ⟨h1, h2, h3, h4⟩

theorem sxThrow_jump (s : SxState) (e : SxTraceEntry) (h : s.contexts ≠ []) :
    (sxThrow s e).2 = Transfer.jump (normCode e.code) := by
  exact _throw_jump (clearTrace s) e h

theorem sxRethrow_state (s : SxState) (e : SxTraceEntry) :
    ((sxRethrow s e).1).contexts = s.contexts ∧
    ((sxRethrow s e).1).lastJumpCode = s.lastJumpCode ∧
    ((sxRethrow s e).1).heapFreed = s.heapFreed ∧
    ((sxRethrow s e).1).dtorCalled = s.dtorCalled := by
  unfold sxRethrow
  split
  · exact _throw_state s _
  · exact ⟨rfl, rfl, rfl, rfl⟩

theorem sxRethrow_jump (s : SxState) (e : SxTraceEntry) (h1 : s.contexts ≠ [])
    (h2 : s.lastJumpCode = 0) (h3 : topCaught s < FINALLY_THRESHOLD) :
    ∃ k, (sxRethrow s e).2 = Transfer.jump k ∧ 1 ≤ k := by
  unfold sxRethrow
  have hg : 0 < s.contexts.length ∧ s.lastJumpCode = 0 ∧ topCaught s < FINALLY_THRESHOLD := by
    refine ⟨?_, h2, h3⟩
    cases hc : s.contexts with
    | nil => exact absurd hc h1
    | cons a t => simp
  rw [if_pos hg]
  exact ⟨_, _throw_jump s _ h1, normCode_pos _⟩

theorem performAct_state (s : SxState) (a : Act) :
    ((performAct s a).1).contexts = s.contexts ∧
    ((performAct s a).1).lastJumpCode = s.lastJumpCode ∧
    ((performAct s a).1).dtorCalled = s.dtorCalled := by
  obtain ⟨fr, kd⟩ := a
  cases kd with
  | done => exact ⟨rfl, rfl, rfl⟩
  | throwNew e =>
    obtain ⟨h1, h2, _, h4⟩ := sxThrow_state { s with heapFreed := s.heapFreed ++ fr } e
    exact ⟨h1, h2, h4⟩
  | reth e =>
    obtain ⟨h1, h2, _, h4⟩ := sxRethrow_state { s with heapFreed := s.heapFreed ++ fr } e
    exact ⟨h1, h2, h4⟩

theorem _throw_jump_pos (s : SxState) (e : SxTraceEntry) (k : Int)
    (h : (_throw s e).2 = Transfer.jump k) : 1 ≤ k := by
  unfold _throw at h
  split at h
  · exact absurd h (by simp)
  · simp only at h
    have h2 : normCode e.code = k := by simpa using h
    have := normCode_pos e.code
    omega

theorem sxThrow_jump_pos (s : SxState) (e : SxTraceEntry) (k : Int)
    (h : (sxThrow s e).2 = Transfer.jump k) : 1 ≤ k :=
  _throw_jump_pos (clearTrace s) e k h

theorem sxRethrow_jump_pos (s : SxState) (e : SxTraceEntry) (k : Int)
    (h : (sxRethrow s e).2 = Transfer.jump k) : 1 ≤ k := by
  unfold sxRethrow at h
  split at h
  · exact _throw_jump_pos _ _ _ h
  · exact absurd h (by simp)

theorem performAct_jump_pos (s : SxState) (a : Act) (k : Int)
    (h : (performAct s a).2 = some (Transfer.jump k)) : 1 ≤ k := by
  obtain ⟨fr, kd⟩ := a
  cases kd with
  | done => exact absurd h (by simp [performAct])
  | throwNew e =>
    refine sxThrow_jump_pos { s with heapFreed := s.heapFreed ++ fr } e k ?_
    simp only [performAct] at h
    exact Option.some.inj h
  | reth e =>
    refine sxRethrow_jump_pos { s with heapFreed := s.heapFreed ++ fr } e k ?_
    simp only [performAct] at h
    exact Option.some.inj h

theorem performAct_cases (s : SxState) (a : Act) (h1 : s.contexts ≠ [])
    (h2 : s.lastJumpCode = 0) (h3 : topCaught s < FINALLY_THRESHOLD) :
    (performAct s a).2 = none ∨
    ∃ k, (performAct s a).2 = some (Transfer.jump k) ∧ 1 ≤ k := by
  obtain ⟨fr, kd⟩ := a
  cases kd with
  | done => left; rfl
  | throwNew e =>
    right
    have := sxThrow_jump { s with heapFreed := s.heapFreed ++ fr } e h1
    exact ⟨normCode e.code, congrArg some this, normCode_pos _⟩
  | reth e =>
    right
    obtain ⟨k, hk, hk1⟩ :=
      sxRethrow_jump { s with heapFreed := s.heapFreed ++ fr } e h1 h2 h3
    exact ⟨k, congrArg some hk, hk1⟩

theorem topCaught_setLJC (s : SxState) (k : Int) :
    topCaught { s with lastJumpCode := k } = topCaught s := rfl

theorem topCaught_setTopCaught (s : SxState) (c : Nat) (h : s.contexts ≠ []) :
    topCaught (setTopCaught s c) = c := by
  unfold topCaught setTopCaught
  cases hc : s.contexts with
  | nil => exact absurd hc h
  | cons a t => simp

theorem setTopCaught_contexts (s : SxState) (c : Nat) (h : s.contexts ≠ []) :
    (setTopCaught s c).contexts = c :: s.contexts.tail := by
  unfold setTopCaught
  cases hc : s.contexts with
  | nil => exact absurd hc h
  | cons a t => simp

theorem leaveTry_events (s : SxState) (ev : List Event) :
    (leaveTry s ev).2.2 = ev := by
  unfold leaveTry
  cases s.contexts with
  | nil => rfl
  | cons a t =>
    dsimp only
    split
    · split <;> rfl
    · rfl

theorem leaveTry_normal (s : SxState) (ev : List Event) (c : Nat) (rest : List Nat)
    (h : s.contexts = c :: rest) (hu : s.hasUncatchable = false)
    (hl : s.lastJumpCode = 0) :
    leaveTry s ev = ({ s with contexts := rest }, Outcome.normal, ev) := by
  unfold leaveTry
  rw [h]
  dsimp only
  rw [if_neg]
  simp [hu, hl]

theorem leaveTry_thrown (s : SxState) (ev : List Event) (c : Nat) (rest : List Nat)
    (h : s.contexts = c :: rest) (hrest : rest ≠ [])
    (hl : s.lastJumpCode ≠ 0) :
    (leaveTry s ev).2.1 = Outcome.thrownOut (normCode s.lastJumpCode) := by
  unfold leaveTry
  rw [h]
  dsimp only
  rw [if_pos (Or.inr hl)]
  have hj := _throw_jump { s with contexts := rest }
    { code := s.lastJumpCode, uncatchable := false, extra := none } hrest
  rw [hj]

theorem runSx_entry_body (fuel : Nat) (s : SxState) (r : Region) (ev : List Event)
    (h : ¬ 1000 ≤ topCaught s) :
    runSx (fuel + 1) s r (Phase.entry 0) ev =
      match performAct { s with lastJumpCode := 0 } r.bodyAct with
      | (s2, none) => runSx fuel s2 r Phase.finalize (ev ++ [Event.bodyRun])
      | (s2, some (Transfer.exitP n)) => (s2, Outcome.exited n, ev ++ [Event.bodyRun])
      | (s2, some (Transfer.jump k2)) =>
        runSx fuel s2 r (Phase.entry k2) (ev ++ [Event.bodyRun]) := by
  conv_lhs => unfold runSx
  rw [if_neg h, if_pos rfl]
  rcases performAct { s with lastJumpCode := 0 } r.bodyAct with ⟨s2, t⟩
  rcases t with _ | t
  · rfl
  · rcases t with k2 | n <;> rfl

theorem runSx_entry_dispatch (fuel : Nat) (s : SxState) (r : Region) (k : Int)
    (ev : List Event) (h : ¬ 1000 ≤ topCaught s) (hk : ¬ k = 0) :
    runSx (fuel + 1) s r (Phase.entry k) ev =
      match dispatch r.clauses (topCaught s) k with
      | (some i, c2, k2) =>
        (match performAct { setTopCaught { s with lastJumpCode := k } c2 with
            lastJumpCode := k2 } r.catchAct with
         | (s3, none) => runSx fuel s3 r Phase.finalize (ev ++ [Event.catchRun i])
         | (s3, some (Transfer.exitP n)) => (s3, Outcome.exited n, ev ++ [Event.catchRun i])
         | (s3, some (Transfer.jump k3)) =>
           runSx fuel s3 r (Phase.entry k3) (ev ++ [Event.catchRun i]))
      | (none, c2, k2) =>
        runSx fuel { setTopCaught { s with lastJumpCode := k } c2 with
          lastJumpCode := k2 } r Phase.finalize ev := by
  conv_lhs => unfold runSx
  rw [if_neg h, if_neg hk]
  rw [topCaught_setLJC s k]
  rcases dispatch r.clauses (topCaught s) k with ⟨i?, c2, k2⟩
  rcases i? with _ | i
  · rfl
  · dsimp only
    rcases performAct { setTopCaught { s with lastJumpCode := k } c2 with
      lastJumpCode := k2 } r.catchAct with ⟨s3, t⟩
    rcases t with _ | t
    · rfl
    · rcases t with k3 | n <;> rfl

theorem runSx_finalize_run (fuel : Nat) (s : SxState) (r : Region) (ev : List Event)
    (h1 : r.hasFinally = true) (h2 : topCaught s + 1 < FINALLY_THRESHOLD) :
    runSx (fuel + 1) s r Phase.finalize ev =
      match performAct (setTopCaught s FINALLY_THRESHOLD) r.finallyAct with
      | (s2, none) => leaveTry s2 (ev ++ [Event.finallyRun])
      | (s2, some (Transfer.exitP n)) => (s2, Outcome.exited n, ev ++ [Event.finallyRun])
      | (s2, some (Transfer.jump k2)) =>
        runSx fuel s2 r (Phase.entry k2) (ev ++ [Event.finallyRun]) := by
  conv_lhs => unfold runSx
  rw [if_pos h1, if_pos h2]
  dsimp only
  rcases performAct (setTopCaught s FINALLY_THRESHOLD) r.finallyAct with ⟨s2, t⟩
  rcases t with _ | t
  · rfl
  · rcases t with k2 | n <;> rfl

theorem runSx_finalize_skip (fuel : Nat) (s : SxState) (r : Region) (ev : List Event)
    (h1 : r.hasFinally = true) (h2 : ¬ topCaught s + 1 < FINALLY_THRESHOLD) :
    runSx (fuel + 1) s r Phase.finalize ev =
      leaveTry (setTopCaught s (topCaught s + 1)) ev := by
  conv_lhs => unfold runSx
  rw [if_pos h1, if_neg h2]

theorem runSx_finalize_none (fuel : Nat) (s : SxState) (r : Region) (ev : List Event)
    (h1 : r.hasFinally = false) :
    runSx (fuel + 1) s r Phase.finalize ev = leaveTry s ev := by
  conv_lhs => unfold runSx
  rw [if_neg]
  rw [h1]
  simp

theorem performAct_throwNew (s : SxState) (a : Act) (e : SxTraceEntry)
    (hk : a.kind = ActKind.throwNew e) (hctx : s.contexts ≠ []) :
    (performAct s a).2 = some (Transfer.jump (normCode e.code)) := by
  obtain ⟨fr, kd⟩ := a
  cases kd with
  | done => exact absurd hk (by simp)
  | reth e2 => exact absurd hk (by simp)
  | throwNew e2 =>
    have he : e2 = e := by
      simpa using hk
    subst he
    have := sxThrow_jump { s with heapFreed := s.heapFreed ++ fr } e2 hctx
    exact congrArg some this

theorem c2_finalize_aux (fuel : Nat) (s : SxState) (r : Region) (ev : List Event)
    (hF : r.hasFinally = true) (hc : topCaught s + 1 < FINALLY_THRESHOLD)
    (hctx : s.contexts ≠ []) :
    (runSx (fuel + 3) s r Phase.finalize ev).2.2 = ev ++ [Event.finallyRun] ∧
    (∀ e, r.finallyAct.kind = ActKind.throwNew e → s.contexts.tail ≠ [] →
      (runSx (fuel + 3) s r Phase.finalize ev).2.1 = Outcome.thrownOut (normCode e.code)) := by
  have h3 : fuel + 3 = (fuel + 2) + 1 := rfl
  rw [h3, runSx_finalize_run (fuel + 2) s r ev hF hc]
  have hctx1 : (setTopCaught s FINALLY_THRESHOLD).contexts =
      FINALLY_THRESHOLD :: s.contexts.tail := setTopCaught_contexts s _ hctx
  rcases hpa : performAct (setTopCaught s FINALLY_THRESHOLD) r.finallyAct with ⟨s2, t⟩
  have hs2c : s2.contexts = FINALLY_THRESHOLD :: s.contexts.tail := by
    have := (performAct_state (setTopCaught s FINALLY_THRESHOLD) r.finallyAct).1
    rw [hpa] at this
    simpa [hctx1] using this
  rcases t with _ | t
  · -- finally body completed normally: straight to _sxLeaveTry
    refine ⟨leaveTry_events s2 (ev ++ [Event.finallyRun]), ?_⟩
    intro e hk _
    have := performAct_throwNew (setTopCaught s FINALLY_THRESHOLD) r.finallyAct e hk
      (by rw [hctx1]; exact List.cons_ne_nil _ _)
    rw [hpa] at this
    simp at this
  · rcases t with k2 | n
    · -- finally body threw: the chain is re-entered but nothing can run again
      dsimp only
      rw [show fuel + 2 = (fuel + 1) + 1 from rfl]
      have hk2 : 1 ≤ k2 := by
        have := performAct_jump_pos (setTopCaught s FINALLY_THRESHOLD) r.finallyAct k2
        rw [hpa] at this
        exact this rfl
      have htop2 : topCaught s2 = FINALLY_THRESHOLD := by
        unfold topCaught
        rw [hs2c]
        rfl
      have hlt : ¬ 1000 ≤ topCaught s2 := by
        rw [htop2]
        unfold FINALLY_THRESHOLD
        omega
      have hk2ne : ¬ k2 = 0 := by omega
      rw [runSx_entry_dispatch (fuel + 1) s2 r k2 (ev ++ [Event.finallyRun]) hlt hk2ne]
      obtain ⟨hd1, hd2, hd3, hd4⟩ := dispatch_pos r.clauses k2 (topCaught s2)
        (by rw [htop2]; unfold FINALLY_THRESHOLD; omega)
      rcases hd : dispatch r.clauses (topCaught s2) k2 with ⟨i?, c2, k3⟩
      rw [hd] at hd1 hd2 hd3 hd4
      simp only at hd1 hd2 hd3 hd4
      subst hd1
      rw [hd4]
      dsimp only
      have hs2ne : s2.contexts ≠ [] := by
        rw [hs2c]
        exact List.cons_ne_nil _ _
      have hs3c : ({ setTopCaught { s2 with lastJumpCode := k2 } c2 with
          lastJumpCode := k2 } : SxState).contexts = c2 :: s.contexts.tail := by
        simp only [setTopCaught]
        rw [hs2c]
      have htop3 : topCaught ({ setTopCaught { s2 with lastJumpCode := k2 } c2 with
          lastJumpCode := k2 } : SxState) = c2 := by
        unfold topCaught
        rw [hs3c]
        rfl
      have hskip : ¬ topCaught ({ setTopCaught { s2 with lastJumpCode := k2 } c2 with
          lastJumpCode := k2 } : SxState) + 1 < FINALLY_THRESHOLD := by
        rw [htop3]
        rw [htop2] at hd2
        unfold FINALLY_THRESHOLD at *
        omega
      rw [runSx_finalize_skip fuel _ r _ hF hskip]
      set s3 : SxState :=
        { setTopCaught { s2 with lastJumpCode := k2 } c2 with lastJumpCode := k2 } with hs3
      set s4 : SxState := setTopCaught s3 (topCaught s3 + 1) with hs4
      have hs4c : s4.contexts = (c2 + 1) :: s.contexts.tail := by
        rw [hs4, htop3]
        have h5 := setTopCaught_contexts s3 (c2 + 1) (by rw [hs3c]; exact List.cons_ne_nil _ _)
        rw [h5, hs3c]
        rfl
      constructor
      · exact leaveTry_events s4 (ev ++ [Event.finallyRun])
      · intro e hk htail
        have hthr := performAct_throwNew (setTopCaught s FINALLY_THRESHOLD) r.finallyAct e hk
          (by rw [hctx1]; exact List.cons_ne_nil _ _)
        rw [hpa] at hthr
        have hk2e : k2 = normCode e.code := by simpa using hthr
        have hlj4 : s4.lastJumpCode = k2 := rfl
        have hres := leaveTry_thrown s4 (ev ++ [Event.finallyRun]) (c2 + 1) s.contexts.tail
          hs4c htail (by rw [hlj4]; omega)
        rw [hres, hlj4, hk2e, normCode_idem _ (normCode_pos e.code)]
    · -- the finally body called rethrow illegally: exit(EXIT_OUTSIDE_RETHROW)
      refine ⟨rfl, ?_⟩
      intro e hk _
      have := performAct_throwNew (setTopCaught s FINALLY_THRESHOLD) r.finallyAct e hk
        (by rw [hctx1]; exact List.cons_ne_nil _ _)
      rw [hpa] at this
      simp at this

theorem topCaught_of_cons (s2 : SxState) (c : Nat) (tl : List Nat)
    (h : s2.contexts = c :: tl) : topCaught s2 = c := by
  unfold topCaught
  rw [h]
  rfl

theorem performAct_contexts_eq (sIn s2 : SxState) (a : Act) (t : Option Transfer)
    (heq : performAct sIn a = (s2, t)) :
    s2.contexts = sIn.contexts ∧ s2.lastJumpCode = sIn.lastJumpCode ∧
    s2.dtorCalled = sIn.dtorCalled := by
  have h := performAct_state sIn a
  rw [heq] at h
  exact h

theorem performAct_result_cases (sIn s2 : SxState) (a : Act) (t : Option Transfer)
    (heq : performAct sIn a = (s2, t))
    (h1 : sIn.contexts ≠ []) (h2 : sIn.lastJumpCode = 0)
    (h3 : topCaught sIn < FINALLY_THRESHOLD) :
    t = none ∨ ∃ k, t = some (Transfer.jump k) ∧ 1 ≤ k := by
  have h := performAct_cases sIn a h1 h2 h3
  rw [heq] at h
  exact h

theorem performAct_jump_ge_one (sIn s2 : SxState) (a : Act) (k : Int)
    (heq : performAct sIn a = (s2, some (Transfer.jump k))) : 1 ≤ k := by
  have h := performAct_jump_pos sIn a k
  rw [heq] at h
  exact h rfl

/-- C2 (amended): with at most 47 catch clauses (so that clause-condition
evaluations cannot push `caught` past `FINALLY_THRESHOLD`), a region with a
finally clause runs it exactly once - it is the last event of the region,
whatever the body, the catch clauses and the claiming catch body do - and a
throw from inside the finally body leaves the frame without re-entering its
catch clauses or finally, propagating to the next enclosing frame. -/
theorem c2_finally_amended (s : SxState) (r : Region)
    (hF : r.hasFinally = true) (hlen : r.clauses.length ≤ 47)
    (hcap : s.contexts.length < MAX_TRY_CATCH) :
    (runRegion s r).2.2.count Event.finallyRun = 1 ∧
    (runRegion s r).2.2.getLast? = some Event.finallyRun ∧
    (∀ e, r.finallyAct.kind = ActKind.throwNew e → s.contexts ≠ [] →
      (runRegion s r).2.1 = Outcome.thrownOut (normCode e.code)) := by
  have hmaster : (∃ pre, (runRegion s r).2.2 = pre ++ [Event.finallyRun] ∧
      Event.finallyRun ∉ pre) ∧
      (∀ e, r.finallyAct.kind = ActKind.throwNew e → s.contexts ≠ [] →
        (runRegion s r).2.1 = Outcome.thrownOut (normCode e.code)) := by
    unfold runRegion
    rw [if_neg (by omega)]
    rw [show (16 : Nat) = 15 + 1 from rfl]
    rw [runSx_entry_body 15 _ r [] (by show ¬ (1000 : Nat) ≤ 0; omega)]
    rw [List.nil_append]
    split
    case h_1 s2 heq =>
      -- body completed normally
      have hs2c : s2.contexts = 0 :: s.contexts :=
        (performAct_contexts_eq _ _ _ _ heq).1
      rw [show (15 : Nat) = 12 + 3 from rfl]
      obtain ⟨hev, hout⟩ := c2_finalize_aux 12 s2 r [Event.bodyRun] hF
        (by rw [topCaught_of_cons s2 0 s.contexts hs2c]; decide)
        (by rw [hs2c]; exact List.cons_ne_nil _ _)
      refine ⟨⟨[Event.bodyRun], hev, by simp⟩, ?_⟩
      intro e hk hs
      exact hout e hk (by rw [hs2c]; exact hs)
    case h_2 s2 n heq =>
      -- the body cannot exit the process from inside a live frame
      exfalso
      rcases performAct_result_cases _ _ _ _ heq (by exact List.cons_ne_nil _ _) rfl
        (by show (0 : Nat) < FINALLY_THRESHOLD; decide) with h | ⟨k2, hk2, _⟩
      · simp at h
      · simp at hk2
    case h_3 s2 k heq =>
      -- body threw with jump code k ≥ 1
      have hs2c : s2.contexts = 0 :: s.contexts :=
        (performAct_contexts_eq _ _ _ _ heq).1
      have hk1 : 1 ≤ k := performAct_jump_ge_one _ _ _ _ heq
      rw [show (15 : Nat) = 14 + 1 from rfl]
      rw [runSx_entry_dispatch 14 s2 r k [Event.bodyRun]
        (by rw [topCaught_of_cons s2 0 s.contexts hs2c]; omega) (by omega)]
      rw [topCaught_of_cons s2 0 s.contexts hs2c]
      rw [dispatch_zero r.clauses k]
      cases hfm : firstMatchIdx k r.clauses with
      | some i =>
        -- a catch clause claims the frame
        dsimp only
        have hscc : ({ setTopCaught { s2 with lastJumpCode := k } 1 with
            lastJumpCode := 0 } : SxState).contexts = 1 :: s.contexts := by
          simp only [setTopCaught]
          rw [hs2c]
        split
        case h_1 s3 heq2 =>
          -- claiming catch body completed normally
          have hs3c : s3.contexts = 1 :: s.contexts := by
            have := (performAct_contexts_eq _ _ _ _ heq2).1
            rw [this, hscc]
          rw [show (14 : Nat) = 11 + 3 from rfl]
          obtain ⟨hev, hout⟩ := c2_finalize_aux 11 s3 r
            [Event.bodyRun, Event.catchRun i] hF
            (by rw [topCaught_of_cons s3 1 s.contexts hs3c]; decide)
            (by rw [hs3c]; exact List.cons_ne_nil _ _)
          refine ⟨⟨[Event.bodyRun, Event.catchRun i], hev, by simp⟩, ?_⟩
          intro e hk hs
          exact hout e hk (by rw [hs3c]; exact hs)
        case h_2 s3 n2 heq2 =>
          exfalso
          rcases performAct_result_cases _ _ _ _ heq2
            (by rw [hscc]; exact List.cons_ne_nil _ _) rfl
            (by rw [topCaught_of_cons _ 1 s.contexts hscc]; decide)
            with h | ⟨k5, hk5, _⟩
          · simp at h
          · simp at hk5
        case h_3 s3 k4 heq2 =>
          -- claiming catch body threw: chain re-entered, no second claim
          have hs3c : s3.contexts = 1 :: s.contexts := by
            have := (performAct_contexts_eq _ _ _ _ heq2).1
            rw [this, hscc]
          have hk41 : 1 ≤ k4 := performAct_jump_ge_one _ _ _ _ heq2
          rw [show (14 : Nat) = 13 + 1 from rfl]
          rw [runSx_entry_dispatch 13 s3 r k4 ([Event.bodyRun] ++ [Event.catchRun i])
            (by rw [topCaught_of_cons s3 1 s.contexts hs3c]; omega) (by omega)]
          rw [topCaught_of_cons s3 1 s.contexts hs3c]
          obtain ⟨hd1, hd2, hd3, hd4⟩ := dispatch_pos r.clauses k4 1 (by omega)
          rcases hd : dispatch r.clauses 1 k4 with ⟨i?, c4, k5⟩
          rw [hd] at hd1 hd2 hd3 hd4
          simp only at hd1 hd2 hd3 hd4
          subst hd1
          dsimp only
          have hs5c : ({ setTopCaught { s3 with lastJumpCode := k4 } c4 with
              lastJumpCode := k5 } : SxState).contexts = c4 :: s.contexts := by
            simp only [setTopCaught]
            rw [hs3c]
          rw [show (13 : Nat) = 10 + 3 from rfl]
          obtain ⟨hev, hout⟩ := c2_finalize_aux 10 _ r
            [Event.bodyRun, Event.catchRun i] hF
            (by rw [topCaught_of_cons _ c4 s.contexts hs5c]
                unfold FINALLY_THRESHOLD
                omega)
            (by rw [hs5c]; exact List.cons_ne_nil _ _)
          refine ⟨⟨[Event.bodyRun, Event.catchRun i], hev, by simp⟩, ?_⟩
          intro e hk hs
          exact hout e hk (by rw [hs5c]; exact hs)
      | none =>
        -- no clause matches: straight to finally with the code pending
        dsimp only
        have hs5c : ({ setTopCaught { s2 with lastJumpCode := k } 0 with
            lastJumpCode := k } : SxState).contexts = 0 :: s.contexts := by
          simp only [setTopCaught]
          rw [hs2c]
        rw [show (14 : Nat) = 11 + 3 from rfl]
        obtain ⟨hev, hout⟩ := c2_finalize_aux 11 _ r [Event.bodyRun] hF
          (by rw [topCaught_of_cons _ 0 s.contexts hs5c]; decide)
          (by rw [hs5c]; exact List.cons_ne_nil _ _)
        refine ⟨⟨[Event.bodyRun], hev, by simp⟩, ?_⟩
        intro e hk hs
        exact hout e hk (by rw [hs5c]; exact hs)
  obtain ⟨⟨pre, hpre, hnotin⟩, hout⟩ := hmaster
  refine ⟨?_, ?_, hout⟩
  · rw [hpre]
    simp [List.count_append, List.count_eq_zero_of_not_mem hnotin]
  · rw [hpre]
    simp

theorem countCatchRuns_append (ev : List Event) (e : Event) :
    countCatchRuns (ev ++ [e]) =
      countCatchRuns ev + (if isCatchRun e then 1 else 0) := by
  unfold countCatchRuns
  rw [List.filter_append, List.length_append]
  cases he : isCatchRun e <;> simp [he]

theorem performAct_jump_ctx (sIn s2 : SxState) (a : Act) (k : Int)
    (heq : performAct sIn a = (s2, some (Transfer.jump k))) : sIn.contexts ≠ [] := by
  intro hnil
  obtain ⟨fr, kd⟩ := a
  cases kd with
  | done => simp [performAct] at heq
  | throwNew e =>
    simp only [performAct, sxThrow] at heq
    unfold _throw at heq
    rw [if_pos] at heq
    · simp at heq
    · have : (_throwState (clearTrace { sIn with heapFreed := sIn.heapFreed ++ fr }) e).contexts
          = sIn.contexts := (_throwState_state _ e).1
      rw [this, hnil]
      simp
  | reth e =>
    simp only [performAct, sxRethrow] at heq
    rw [if_neg] at heq
    · simp at heq
    · rw [show ({ sIn with heapFreed := sIn.heapFreed ++ fr } : SxState).contexts
        = sIn.contexts from rfl, hnil]
      simp

theorem setTopCaught_ne_nil (s : SxState) (c : Nat) (h : (setTopCaught s c).contexts ≠ []) :
    s.contexts ≠ [] := by
  intro hnil
  apply h
  unfold setTopCaught
  rw [hnil]

theorem runSx_entry_assert (fuel : Nat) (s : SxState) (r : Region) (k : Int)
    (ev : List Event) (h : 1000 ≤ topCaught s) :
    runSx (fuel + 1) s r (Phase.entry k) ev = (s, Outcome.exited 250, ev) := by
  conv_lhs => unfold runSx
  rw [if_pos h]

theorem countCatch_body (ev : List Event) :
    countCatchRuns (ev ++ [Event.bodyRun]) = countCatchRuns ev := by
  rw [countCatchRuns_append]
  simp [isCatchRun]

theorem countCatch_fin (ev : List Event) :
    countCatchRuns (ev ++ [Event.finallyRun]) = countCatchRuns ev := by
  rw [countCatchRuns_append]
  simp [isCatchRun]

theorem countCatch_catch (ev : List Event) (i : Nat) :
    countCatchRuns (ev ++ [Event.catchRun i]) = countCatchRuns ev + 1 := by
  rw [countCatchRuns_append]
  simp [isCatchRun]

/-- At most `catchBudget ph s` additional catch bodies run from any point
of a region's execution: `caught` never returns to 0, so once a clause has
claimed (or once the finalize stage has been reached) no further catch
body can run. -/
theorem runSx_countCatch (fuel : Nat) :
    ∀ (s : SxState) (r : Region) (ph : Phase) (ev : List Event),
      countCatchRuns (runSx fuel s r ph ev).2.2 ≤
        countCatchRuns ev + catchBudget ph s := by
  induction fuel with
  | zero =>
    intro s r ph ev
    simp [runSx]
  | succ fuel ih =>
    intro s r ph ev
    cases ph with
    | entry k =>
      by_cases hassert : 1000 ≤ topCaught s
      · rw [runSx_entry_assert fuel s r k ev hassert]
        exact Nat.le_add_right _ _
      · by_cases hk : k = 0
        · subst hk
          rw [runSx_entry_body fuel s r ev hassert]
          split
          next s2 heq =>
            have htc : topCaught s2 = topCaught s := by
              have := (performAct_contexts_eq _ _ _ _ heq).1
              unfold topCaught
              rw [this]
            have hb := ih s2 r Phase.finalize (ev ++ [Event.bodyRun])
            rw [countCatch_body] at hb
            exact le_trans hb (Nat.add_le_add_left (Nat.zero_le _) _)
          next s2 n heq =>
            rw [countCatch_body]
            exact Nat.le_add_right _ _
          next s2 k2 heq =>
            have htc : topCaught s2 = topCaught s := by
              have := (performAct_contexts_eq _ _ _ _ heq).1
              unfold topCaught
              rw [this]
            have hb := ih s2 r (Phase.entry k2) (ev ++ [Event.bodyRun])
            rw [countCatch_body] at hb
            have hbud : catchBudget (Phase.entry k2) s2 = catchBudget (Phase.entry 0) s := by
              simp only [catchBudget, htc]
            rw [hbud] at hb
            exact hb
        · rw [runSx_entry_dispatch fuel s r k ev hassert hk]
          split
          next i c2 k2 heqd =>
            obtain ⟨htc0, hc21, hk20, _⟩ := dispatch_claim r.clauses k _ i c2 k2 heqd
            subst hc21 hk20
            have hbud : catchBudget (Phase.entry k) s = 1 := by
              simp [catchBudget, htc0]
            rw [hbud]
            split
            next s3 heq2 =>
              have hb := ih s3 r Phase.finalize (ev ++ [Event.catchRun i])
              rw [countCatch_catch] at hb
              have h0 : catchBudget Phase.finalize s3 = 0 := rfl
              rw [h0, Nat.add_zero] at hb
              exact hb
            next s3 n heq2 =>
              rw [countCatch_catch]
            next s3 k3 heq2 =>
              have hctx2 := performAct_jump_ctx _ _ _ _ heq2
              have hctx3 : s.contexts ≠ [] :=
                setTopCaught_ne_nil { s with lastJumpCode := k } 1 hctx2
              have htc3 : topCaught s3 = 1 := by
                have h1 := (performAct_contexts_eq _ _ _ _ heq2).1
                have h2 := setTopCaught_contexts { s with lastJumpCode := k } 1 hctx3
                unfold topCaught
                rw [h1]
                rw [show ({ setTopCaught { s with lastJumpCode := k } 1 with
                  lastJumpCode := (0 : Int) } : SxState).contexts
                  = (setTopCaught { s with lastJumpCode := k } 1).contexts from rfl]
                rw [h2]
                rfl
              have hb := ih s3 r (Phase.entry k3) (ev ++ [Event.catchRun i])
              rw [countCatch_catch] at hb
              have h0 : catchBudget (Phase.entry k3) s3 = 0 := by
                simp [catchBudget, htc3]
              rw [h0, Nat.add_zero] at hb
              exact hb
          next c2 k2 heqd =>
            have hb := ih { setTopCaught { s with lastJumpCode := k } c2 with
              lastJumpCode := k2 } r Phase.finalize ev
            exact le_trans hb (Nat.add_le_add_left (Nat.zero_le _) _)
    | finalize =>
      by_cases hFin : r.hasFinally = true
      · by_cases hc : topCaught s + 1 < FINALLY_THRESHOLD
        · rw [runSx_finalize_run fuel s r ev hFin hc]
          split
          next s2 heq =>
            rw [leaveTry_events, countCatch_fin]
            exact Nat.le_add_right _ _
          next s2 n heq =>
            rw [countCatch_fin]
            exact Nat.le_add_right _ _
          next s2 k2 heq =>
            have hctx2 := performAct_jump_ctx _ _ _ _ heq
            have hctx3 : s.contexts ≠ [] := setTopCaught_ne_nil s FINALLY_THRESHOLD hctx2
            have htc2 : topCaught s2 = FINALLY_THRESHOLD := by
              have h1 := (performAct_contexts_eq _ _ _ _ heq).1
              have h2 := setTopCaught_contexts s FINALLY_THRESHOLD hctx3
              unfold topCaught
              rw [h1, h2]
              rfl
            have hb := ih s2 r (Phase.entry k2) (ev ++ [Event.finallyRun])
            rw [countCatch_fin] at hb
            have h0 : catchBudget (Phase.entry k2) s2 = 0 := by
              simp [catchBudget, htc2, FINALLY_THRESHOLD]
            rw [h0, Nat.add_zero] at hb
            exact le_trans hb (Nat.le_add_right _ _)
        · rw [runSx_finalize_skip fuel s r ev hFin hc, leaveTry_events]
          exact Nat.le_add_right _ _
      · rw [runSx_finalize_none fuel s r ev (by simpa using hFin), leaveTry_events]
        exact Nat.le_add_right _ _

theorem claMatches_catchC (k n : Int) (h : claMatches k (Clause.catchC n) = true) :
    k = n := by
  simpa [claMatches] using h

theorem notin_append1 (ev : List Event) (x e : Event) (h1 : x ∉ ev) (h2 : x ≠ e) :
    x ∉ ev ++ [e] := by
  simp [List.mem_append, h1, h2]

/-- A `catch (n)` clause with `n` below 1 can never run: the pending jump
code during dispatch is always at least 1. -/
theorem runSx_noNegCatch (fuel : Nat) :
    ∀ (s : SxState) (r : Region) (ph : Phase) (ev : List Event) (j : Nat) (n : Int),
      r.clauses[j]? = some (Clause.catchC n) → n ≤ 0 →
      Event.catchRun j ∉ ev →
      (∀ k, ph = Phase.entry k → k = 0 ∨ 1 ≤ k) →
      Event.catchRun j ∉ (runSx fuel s r ph ev).2.2 := by
  induction fuel with
  | zero =>
    intro s r ph ev j n hj hn hev hph
    simpa [runSx] using hev
  | succ fuel ih =>
    intro s r ph ev j n hj hn hev hph
    cases ph with
    | entry k =>
      by_cases hassert : 1000 ≤ topCaught s
      · rw [runSx_entry_assert fuel s r k ev hassert]
        exact hev
      · by_cases hk : k = 0
        · subst hk
          rw [runSx_entry_body fuel s r ev hassert]
          have hev2 : Event.catchRun j ∉ ev ++ [Event.bodyRun] :=
            notin_append1 ev _ _ hev (by simp)
          split
          next s2 heq =>
            exact ih s2 r Phase.finalize (ev ++ [Event.bodyRun]) j n hj hn hev2 (by simp)
          next s2 n2 heq =>
            exact hev2
          next s2 k2 heq =>
            have hk2 := performAct_jump_ge_one _ _ _ _ heq
            exact ih s2 r (Phase.entry k2) (ev ++ [Event.bodyRun]) j n hj hn hev2
              (by intro k3 hk3; right; injection hk3 with h4; omega)
        · have hk1 : 1 ≤ k := by
            rcases hph k rfl with h | h
            · exact absurd h hk
            · exact h
          rw [runSx_entry_dispatch fuel s r k ev hassert hk]
          split
          next i c2 k2 heqd =>
            obtain ⟨htc0, hc21, hk20, cla, hg, hm⟩ :=
              dispatch_claim r.clauses k _ i c2 k2 heqd
            subst hc21 hk20
            have hij : i ≠ j := by
              intro hij
              subst hij
              rw [hj] at hg
              have hcla : cla = Clause.catchC n := by
                injection hg with h5
                exact h5.symm
              subst hcla
              have := claMatches_catchC k n hm
              omega
            have hev2 : Event.catchRun j ∉ ev ++ [Event.catchRun i] :=
              notin_append1 ev _ _ hev (by simp [Ne.symm hij])
            split
            next s3 heq2 =>
              exact ih s3 r Phase.finalize (ev ++ [Event.catchRun i]) j n hj hn hev2 (by simp)
            next s3 n2 heq2 =>
              exact hev2
            next s3 k3 heq2 =>
              have hk3 := performAct_jump_ge_one _ _ _ _ heq2
              exact ih s3 r (Phase.entry k3) (ev ++ [Event.catchRun i]) j n hj hn hev2
                (by intro k4 hk4; right; injection hk4 with h4; omega)
          next c2 k2 heqd =>
            exact ih { setTopCaught { s with lastJumpCode := k } c2 with
              lastJumpCode := k2 } r Phase.finalize ev j n hj hn hev (by simp)
    | finalize =>
      by_cases hFin : r.hasFinally = true
      · by_cases hc : topCaught s + 1 < FINALLY_THRESHOLD
        · rw [runSx_finalize_run fuel s r ev hFin hc]
          have hev2 : Event.catchRun j ∉ ev ++ [Event.finallyRun] :=
            notin_append1 ev _ _ hev (by simp)
          split
          next s2 heq =>
            rw [leaveTry_events]
            exact hev2
          next s2 n2 heq =>
            exact hev2
          next s2 k2 heq =>
            have hk2 := performAct_jump_ge_one _ _ _ _ heq
            exact ih s2 r (Phase.entry k2) (ev ++ [Event.finallyRun]) j n hj hn hev2
              (by intro k3 hk3; right; injection hk3 with h4; omega)
        · rw [runSx_finalize_skip fuel s r ev hFin hc, leaveTry_events]
          exact hev
      · rw [runSx_finalize_none fuel s r ev (by simpa using hFin), leaveTry_events]
        exact hev

/-- C1: in the Arbitrating state (a throw delivered a pending code to a
fresh frame, `caught = 0`), the catch clauses are evaluated in source order
and exactly the first clause whose declared code equals the pending code,
or a catch-all clause, claims the frame: `caught` becomes 1, the pending
code is cleared to 0 and that clause's body runs; no other clause of the
same frame ever runs (at most one catch body per region execution), even
if its declared code also matches. -/
theorem c1_catch_arbitration :
    (∀ (cl : List Clause) (k : Int),
      dispatch cl 0 k =
        match firstMatchIdx k cl with
        | some i => (some i, 1, 0)
        | none => (none, 0, k)) ∧
    (∀ (s : SxState) (r : Region), countCatchRuns (runRegion s r).2.2 ≤ 1) := by
  constructor
  · exact dispatch_zero
  · intro s r
    unfold runRegion
    split
    · exact Nat.zero_le 1
    · have h := runSx_countCatch 16 { s with contexts := 0 :: s.contexts } r (Phase.entry 0) []
      have hb : catchBudget (Phase.entry 0) { s with contexts := 0 :: s.contexts } = 1 := rfl
      rw [hb] at h
      simpa using h

/-- C1 witness: with pending code 2 and clauses catch(2), catchall,
catch(2), exactly the first clause claims, `caught` becomes 1 and the
pending code is cleared; a concrete region run executes at most one
catch body. -/
theorem c1_catch_arbitration_witness :
    dispatch [Clause.catchC 2, Clause.all, Clause.catchC 2] 0 2 = (some 0, 1, 0) ∧
    countCatchRuns (runRegion ⟨[], 0, [], false, [], [], []⟩
      { bodyAct := ⟨[], ActKind.throwNew ⟨2, false, none⟩⟩
        clauses := [Clause.catchC 2, Clause.all, Clause.catchC 2]
        catchAct := ⟨[], ActKind.done⟩
        hasFinally := false
        finallyAct := ⟨[], ActKind.done⟩ }).2.2 ≤ 1 := by
  constructor
  · rw [c1_catch_arbitration.1 [Clause.catchC 2, Clause.all, Clause.catchC 2] 2]
    decide
  · exact c1_catch_arbitration.2 ⟨[], 0, [], false, [], [], []⟩ _

/-- C10: every control transfer performed by `_throw` into an enclosing
frame delivers a jump code of at least 1 (a trace-entry code of 0 or below
is replaced by 1 at the `longjmp`); consequently a `catch (n)` clause with
`n ≤ 0` can never claim a frame and its body is unreachable in every
region execution. -/
theorem c10_delivered_code_positive :
    (∀ (s : SxState) (e : SxTraceEntry), s.contexts ≠ [] →
      (_throw s e).2 = Transfer.jump (normCode e.code) ∧ 1 ≤ normCode e.code) ∧
    (∀ (s : SxState) (r : Region) (j : Nat) (n : Int),
      r.clauses[j]? = some (Clause.catchC n) → n ≤ 0 →
      Event.catchRun j ∉ (runRegion s r).2.2) := by
  constructor
  · intro s e h
    exact ⟨_throw_jump s e h, normCode_pos _⟩
  · intro s r j n hj hn
    unfold runRegion
    split
    · simp
    · exact runSx_noNegCatch 16 _ r (Phase.entry 0) [] j n hj hn (by simp)
        (by intro k hk
            injection hk with h4
            omega)

/-- C10 witness: a throw with entry code -5 is delivered as jump code 1,
and a region whose body throws code 0 never runs its catch(0) clause. -/
theorem c10_delivered_code_positive_witness :
    (_throw ⟨[0], 0, [], false, [], [], []⟩ ⟨-5, false, none⟩).2 = Transfer.jump 1 ∧
    Event.catchRun 0 ∉ (runRegion ⟨[], 0, [], false, [], [], []⟩
      { bodyAct := ⟨[], ActKind.throwNew ⟨0, false, none⟩⟩
        clauses := [Clause.catchC 0]
        catchAct := ⟨[], ActKind.done⟩
        hasFinally := false
        finallyAct := ⟨[], ActKind.done⟩ }).2.2 := by
  constructor
  · have h := (c10_delivered_code_positive.1 ⟨[0], 0, [], false, [], [], []⟩
      ⟨-5, false, none⟩ (by simp)).1
    rw [h]
    decide
  · exact c10_delivered_code_positive.2 ⟨[], 0, [], false, [], [], []⟩ _ 0 0 rfl le_rfl

/-- C2 counterexample: the claim fails as stated.  A region with 48
catch-all clauses and a finally clause, whose body throws and whose
claiming catch body throws again, never runs its finally body: the 48
`_sxSetCaught(0)` evaluations of the re-entered chain push `caught` to 49,
and the finally increment reaches `FINALLY_THRESHOLD`, so the finally body
is skipped. -/
theorem c2_finally_counterexample :
    (runRegion ⟨[0], 0, [], false, [], [], []⟩
      { bodyAct := ⟨[], ActKind.throwNew ⟨1, false, none⟩⟩
        clauses := List.replicate 48 Clause.all
        catchAct := ⟨[], ActKind.throwNew ⟨1, false, none⟩⟩
        hasFinally := true
        finallyAct := ⟨[], ActKind.done⟩ }).2.2.count Event.finallyRun = 0 := by
  decide

/-- C2 witness: a region with one catch clause and a throwing finally body
runs finally exactly once, as its last event, and the finally throw
propagates its code (2) to the enclosing frame. -/
theorem c2_finally_amended_witness :
    (runRegion ⟨[0], 0, [], false, [], [], []⟩
      { bodyAct := ⟨[], ActKind.throwNew ⟨9, false, none⟩⟩
        clauses := [Clause.catchC 9]
        catchAct := ⟨[], ActKind.done⟩
        hasFinally := true
        finallyAct := ⟨[], ActKind.throwNew ⟨2, false, none⟩⟩ }).2.2.count
      Event.finallyRun = 1 ∧
    (runRegion ⟨[0], 0, [], false, [], [], []⟩
      { bodyAct := ⟨[], ActKind.throwNew ⟨9, false, none⟩⟩
        clauses := [Clause.catchC 9]
        catchAct := ⟨[], ActKind.done⟩
        hasFinally := true
        finallyAct := ⟨[], ActKind.throwNew ⟨2, false, none⟩⟩ }).2.2.getLast?
      = some Event.finallyRun ∧
    (runRegion ⟨[0], 0, [], false, [], [], []⟩
      { bodyAct := ⟨[], ActKind.throwNew ⟨9, false, none⟩⟩
        clauses := [Clause.catchC 9]
        catchAct := ⟨[], ActKind.done⟩
        hasFinally := true
        finallyAct := ⟨[], ActKind.throwNew ⟨2, false, none⟩⟩ }).2.1
      = Outcome.thrownOut 2 := by
  obtain ⟨h1, h2, h3⟩ := c2_finally_amended ⟨[0], 0, [], false, [], [], []⟩
    { bodyAct := ⟨[], ActKind.throwNew ⟨9, false, none⟩⟩
      clauses := [Clause.catchC 9]
      catchAct := ⟨[], ActKind.done⟩
      hasFinally := true
      finallyAct := ⟨[], ActKind.throwNew ⟨2, false, none⟩⟩ }
    rfl (by decide) (by decide)
  refine ⟨h1, h2, ?_⟩
  have h4 := h3 ⟨2, false, none⟩ rfl (by decide)
  rw [h4]
  decide

/-- C5: the claim is right and the code has a slip.  The uncaught-exception
path of `_throw` computes `EXIT_UNCAUGHT + code` from the raw entry code,
without the below-1-to-1 normalization that the longjmp path (and the
header, "minimum 1") prescribe: a throw with entry code 0 and no enclosing
frame exits with status 200, outside the documented 201..254 range, while
the jump-code normalization indeed maps 0 to 1. -/
theorem c5_uncaught_exit_bug :
    (_throw ⟨[], 0, [], false, [], [], []⟩ ⟨0, false, none⟩).2 =
      Transfer.exitP 200 ∧
    normCode 0 = 1 ∧ ¬ (201 ≤ (200 : Int)) := by
  decide

/-- C3 counterexample: the claim fails as stated.  The body throws code 5,
`catch (5)` claims, and the catch body rethrows with no explicit code; the
enclosing frame receives jump code 1, not 5. -/
theorem c3_rethrow_code_counterexample :
    (runRegion ⟨[0], 0, [], false, [], [], []⟩
      { bodyAct := ⟨[], ActKind.throwNew ⟨5, false, none⟩⟩
        clauses := [Clause.catchC 5]
        catchAct := ⟨[], ActKind.reth ⟨0, false, none⟩⟩
        hasFinally := false
        finallyAct := ⟨[], ActKind.done⟩ }).2.1 = Outcome.thrownOut 1 ∧
    Outcome.thrownOut (1 : Int) ≠ Outcome.thrownOut 5 := by
  decide

/-- C3 (amended): a rethrow with no explicit code (entry code below 1)
copies `_sxLastJumpCode` - which a claiming catch has reset to 0, without
capturing the claimed code anywhere - so the rethrown entry is recorded
with code 0 and delivered to the frame as jump code 1; the original code C
survives only in the earlier trace entries, which a rethrow keeps. -/
theorem c3_rethrow_code_amended (s : SxState) (e : SxTraceEntry)
    (h1 : s.contexts ≠ []) (h2 : s.lastJumpCode = 0)
    (h3 : topCaught s < FINALLY_THRESHOLD) (h4 : e.code < 1)
    (h5 : s.trace.length < MAX_TRACE) :
    sxRethrow s e =
      (⟨s.contexts, s.lastJumpCode, s.trace ++ [{ e with code := 0 }],
        s.hasUncatchable || e.uncatchable, s.freedExtras, s.heapFreed, s.dtorCalled⟩,
        Transfer.jump 1) := by
  have hg : 0 < s.contexts.length ∧ s.lastJumpCode = 0 ∧ topCaught s < FINALLY_THRESHOLD := by
    refine ⟨?_, h2, h3⟩
    cases hc : s.contexts with
    | nil => exact absurd hc h1
    | cons a t => simp
  unfold sxRethrow
  rw [if_pos hg, if_pos h4]
  rw [show ({ e with code := s.lastJumpCode } : SxTraceEntry) = { e with code := 0 } from
    by rw [h2]]
  unfold _throw
  rw [if_neg]
  · unfold _throwState sxAddTraceEntry
    rw [if_pos h5]
    rfl
  · have hc1 := (_throwState_state s { e with code := 0 }).1
    rw [hc1]
    cases hc : s.contexts with
    | nil => exact absurd hc h1
    | cons a t => simp

/-- C3 witness: inside a claimed catch (one frame, `caught = 1`, pending
code reset to 0) after a throw of code 5, a rethrow of an entry with
code 0 appends a code-0 entry and jumps with code 1. -/
theorem c3_rethrow_code_amended_witness :
    sxRethrow ⟨[1], 0, [⟨5, false, none⟩], false, [], [], []⟩ ⟨0, false, none⟩ =
      (⟨[1], 0, [⟨5, false, none⟩, ⟨0, false, none⟩], false, [], [], []⟩,
        Transfer.jump 1) := by
  have h := c3_rethrow_code_amended ⟨[1], 0, [⟨5, false, none⟩], false, [], [], []⟩
    ⟨0, false, none⟩ (by simp) rfl (by decide) (by decide) (by decide)
  rw [h]
  rfl

/-- C4 counterexample: the claim fails as stated.  A rethrow in a plain
try body - not inside any catch, `caught = 0` - passes `sxRethrow`'s
guard (`_sxLastJumpCode` is 0 and `caught` is below the sentinel), throws
a catchable code-1 exception which the region's own catchall claims, and
the region completes normally; the process is not terminated. -/
theorem c4_rethrow_guard_counterexample :
    (runRegion ⟨[], 0, [], false, [], [], []⟩
      { bodyAct := ⟨[], ActKind.reth ⟨0, false, none⟩⟩
        clauses := [Clause.all]
        catchAct := ⟨[], ActKind.done⟩
        hasFinally := false
        finallyAct := ⟨[], ActKind.done⟩ }).2.1 = Outcome.normal := by
  decide

/-- C4 (amended): `sxRethrow` terminates the process with
`EXIT_OUTSIDE_RETHROW` (252) exactly when there is no enclosing frame, or
the pending jump code is nonzero, or the frame's claimed counter is at or
above the finally sentinel; otherwise - which includes both a claimed
catch (`caught = 1`) and a plain try body before any throw (`caught = 0`)
- it throws.  The guard does not require `caught = 1`, so rethrow misuse
from a try body is not detected. -/
theorem c4_rethrow_guard_amended (s : SxState) (e : SxTraceEntry) :
    ((0 < s.contexts.length ∧ s.lastJumpCode = 0 ∧
        topCaught s < FINALLY_THRESHOLD) →
      sxRethrow s e =
        _throw s (if e.code < 1 then { e with code := s.lastJumpCode } else e)) ∧
    (¬ (0 < s.contexts.length ∧ s.lastJumpCode = 0 ∧
        topCaught s < FINALLY_THRESHOLD) →
      sxRethrow s e = (s, Transfer.exitP 252)) := by
  constructor <;> intro h <;> unfold sxRethrow
  · rw [if_pos h]
  · rw [if_neg h]

/-- C4 witness: rethrow with no frame at all exits with 252; rethrow in a
try body (`caught = 0`, pending 0) instead throws. -/
theorem c4_rethrow_guard_amended_witness :
    sxRethrow ⟨[], 5, [], false, [], [], []⟩ ⟨3, false, none⟩ =
      (⟨[], 5, [], false, [], [], []⟩, Transfer.exitP 252) ∧
    sxRethrow ⟨[0], 0, [], false, [], [], []⟩ ⟨3, false, none⟩ =
      _throw ⟨[0], 0, [], false, [], [], []⟩ ⟨3, false, none⟩ := by
  constructor
  · exact (c4_rethrow_guard_amended ⟨[], 5, [], false, [], [], []⟩
      ⟨3, false, none⟩).2 (by decide)
  · have h := (c4_rethrow_guard_amended ⟨[0], 0, [], false, [], [], []⟩
      ⟨3, false, none⟩).1 (by decide)
    rw [if_neg (by decide)] at h
    exact h

theorem sxAddTraceEntry_freedExtras (s : SxState) (e : SxTraceEntry) :
    (sxAddTraceEntry s e).freedExtras = s.freedExtras := by
  unfold sxAddTraceEntry
  split <;> rfl

theorem _throw_fst (s : SxState) (e : SxTraceEntry) :
    (_throw s e).1 = _throwState s e := by
  unfold _throw
  split <;> rfl

/-- C6 counterexample: the claim fails as stated.  A region whose body
throws (entry code 3 with an owned extra payload 42), whose catchall
claims and completes, and which is then left normally, does NOT leave an
empty trace: immediately after the region the trace still holds 1 entry
and the payload has not been freed. -/
theorem c6_trace_clear_counterexample :
    (runRegion ⟨[], 0, [], false, [], [], []⟩
      { bodyAct := ⟨[], ActKind.throwNew ⟨3, false, some 42⟩⟩
        clauses := [Clause.all]
        catchAct := ⟨[], ActKind.done⟩
        hasFinally := false
        finallyAct := ⟨[], ActKind.done⟩ }).2.1 = Outcome.normal ∧
    (runRegion ⟨[], 0, [], false, [], [], []⟩
      { bodyAct := ⟨[], ActKind.throwNew ⟨3, false, some 42⟩⟩
        clauses := [Clause.all]
        catchAct := ⟨[], ActKind.done⟩
        hasFinally := false
        finallyAct := ⟨[], ActKind.done⟩ }).1.trace.length = 1 ∧
    (runRegion ⟨[], 0, [], false, [], [], []⟩
      { bodyAct := ⟨[], ActKind.throwNew ⟨3, false, some 42⟩⟩
        clauses := [Clause.all]
        catchAct := ⟨[], ActKind.done⟩
        hasFinally := false
        finallyAct := ⟨[], ActKind.done⟩ }).1.freedExtras = [] := by
  decide

/-- C6 (amended): the trace is cleared only at the start of a new
(non-rethrow) throw - `sxThrow` empties it, freeing every evicted entry's
extra in reverse order, before recording its own entry - while leaving a
region whose exception was fully resolved (`_sxLeaveTry` with no pending
code and no uncatchable flag) does not touch the trace: the entries and
their payloads persist until the next non-rethrow throw. -/
theorem c6_trace_clear_amended (s : SxState) (e : SxTraceEntry) (ev : List Event) :
    ((sxThrow s e).1.trace = [e] ∧
     (sxThrow s e).1.freedExtras =
       s.freedExtras ++ s.trace.reverse.filterMap (fun x => x.extra)) ∧
    (s.hasUncatchable = false → s.lastJumpCode = 0 →
      (leaveTry s ev).1.trace = s.trace ∧
      (leaveTry s ev).1.freedExtras = s.freedExtras) := by
  constructor
  · have hf := _throw_fst (clearTrace s) e
    constructor
    · show (_throw (clearTrace s) e).1.trace = [e]
      rw [hf]
      unfold _throwState sxAddTraceEntry
      rw [if_pos (by show (0 : Nat) < MAX_TRACE; decide)]
      rfl
    · show (_throw (clearTrace s) e).1.freedExtras =
        s.freedExtras ++ s.trace.reverse.filterMap (fun x => x.extra)
      rw [hf]
      show (sxAddTraceEntry (clearTrace s) e).freedExtras = _
      rw [sxAddTraceEntry_freedExtras]
      rfl
  · intro hu hl
    cases hc : s.contexts with
    | nil =>
      unfold leaveTry
      rw [hc]
      exact ⟨rfl, rfl⟩
    | cons c rest =>
      rw [leaveTry_normal s ev c rest hc hu hl]
      exact ⟨rfl, rfl⟩

/-- C6 witness: a fresh throw over a trace holding one entry with payload
3 clears it (payload 3 freed) and records just the new entry; leaving a
resolved frame keeps the trace untouched. -/
theorem c6_trace_clear_amended_witness :
    (sxThrow ⟨[], 0, [⟨7, false, some 3⟩], false, [], [], []⟩ ⟨2, false, none⟩).1.trace
      = [⟨2, false, none⟩] ∧
    (sxThrow ⟨[], 0, [⟨7, false, some 3⟩], false, [], [], []⟩ ⟨2, false, none⟩).1.freedExtras
      = [3] ∧
    (leaveTry ⟨[0], 0, [⟨7, false, some 3⟩], false, [], [], []⟩ []).1.trace
      = [⟨7, false, some 3⟩] := by
  obtain ⟨⟨ha, hb⟩, hcd⟩ := c6_trace_clear_amended
    ⟨[], 0, [⟨7, false, some 3⟩], false, [], [], []⟩ ⟨2, false, none⟩ []
  refine ⟨ha, ?_, ?_⟩
  · rw [hb]
    rfl
  · exact (c6_trace_clear_amended ⟨[0], 0, [⟨7, false, some 3⟩], false, [], [], []⟩
      ⟨2, false, none⟩ [] ).2 rfl rfl |>.1

/-- C7 counterexample: the claim fails as stated.  `vtObject()`'s static
initializer is `{NULL, {...}}`: the root descriptor's parent is the null
pointer, not a self-reference. -/
theorem c7_root_parent_counterexample :
    vtObject.parent = none ∧ vtObject.parent ≠ some vtObject := by
  decide

/-- C7 (amended): the root descriptor's parent is null and every chain
walk terminates on it: `sjHasClass` is exactly membership in the (finite,
acyclic) ancestor chain, `sjCountParents` is the chain length minus one,
and every chain ends in a descriptor whose parent is null. -/
theorem c7_chain_walk_amended :
    vtObject.parent = none ∧
    (∀ (v t : Vt), sjHasClassVt v t = (chain v).contains t) ∧
    (∀ v : Vt, sjCountParents v + 1 = (chain v).length) ∧
    (∀ v : Vt, ∃ l rt, chain v = l ++ [rt] ∧ rt.parent = none) := by
  refine ⟨rfl, ?_, ?_, ?_⟩
  · intro v t
    induction v with
    | root n sl =>
      show (Vt.root n sl == t) = ([Vt.root n sl].contains t)
      simp only [List.contains, List.elem_eq_mem, List.mem_singleton]
      rw [show (Vt.root n sl == t) = decide (Vt.root n sl = t) from rfl, decide_eq_decide]
      exact eq_comm
    | child p n sl ih =>
      show ((Vt.child p n sl == t) || sjHasClassVt p t) =
        ((Vt.child p n sl :: chain p).contains t)
      rw [ih]
      simp only [List.contains, List.elem_eq_mem, List.mem_cons]
      rw [show (Vt.child p n sl == t) = decide (Vt.child p n sl = t) from rfl]
      rw [show (decide (t = Vt.child p n sl ∨ t ∈ chain p) : Bool) =
          (decide (t = Vt.child p n sl) || decide (t ∈ chain p)) from by
        simp [Bool.or_eq_true, decide_eq_true_eq]]
      rw [decide_eq_decide.mpr (eq_comm : Vt.child p n sl = t ↔ t = Vt.child p n sl)]
  · intro v
    induction v with
    | root n sl => rfl
    | child p n sl ih =>
      show sjCountParents p + 1 + 1 = (chain p).length + 1
      rw [ih]
  · intro v
    induction v with
    | root n sl => exact ⟨[], Vt.root n sl, rfl, rfl⟩
    | child p n sl ih =>
      obtain ⟨l, rt, h1, h2⟩ := ih
      exact ⟨Vt.child p n sl :: l, rt, by rw [chain, h1, List.cons_append], h2⟩

/-- C7 witness: for the Leaf test descriptor, `sjHasClass` finds the root
but not an unrelated target, `sjCountParents` counts 3 parents for a
4-node chain, and the chain ends at `vtObject` with a null parent. -/
theorem c7_chain_walk_amended_witness :
    sjHasClassVt (vtLeaf 0) vtObject = ([vtLeaf 0, vtMid, vtRoot, vtObject] : List Vt).contains vtObject ∧
    sjCountParents (vtLeaf 0) + 1 = (chain (vtLeaf 0)).length ∧
    (∃ l rt, chain (vtLeaf 0) = l ++ [rt] ∧ rt.parent = none) := by
  refine ⟨?_, c7_chain_walk_amended.2.2.1 (vtLeaf 0), c7_chain_walk_amended.2.2.2 (vtLeaf 0)⟩
  have h := c7_chain_walk_amended.2.1 (vtLeaf 0) vtObject
  rw [h]
  rfl

/-- C8 counterexample: the claim fails as stated on the 3-level hierarchy
Root (declares slot `m` abstract) - Mid (no override) - Leaf.  With only
Leaf overriding `m` (body address 50), `sjBaseMethod` reports Mid - the
nearest ancestor above the implementation whose copied slot is NULL - not
Root; and with no override at all, the slot holds NULL, so `methodBody` is
NULL and `sjBaseMethod` throws the "vtMethod does not belong to vt"
usage error instead of reporting Root. -/
theorem c8_baseMethod_counterexample :
    sjBaseMethod (vtLeaf 50) mIdx = Except.ok ⟨some vtMid, Ptr.null⟩ ∧
    vtMid ≠ vtRoot ∧
    sjBaseMethod (vtLeaf 0) mIdx =
      Except.error "sjInheritedMethod: vtMethod does not belong to vt." :=
  ⟨rfl, by decide, rfl⟩

/-- C8 (amended): in the Root-Mid-Leaf hierarchy with `m` first declared
abstract (NULL) in Root, `sjBaseMethod` on `m` reports Mid with an absent
implementation whenever Leaf overrides `m` with any non-null body - the
walk stops at the first NULL slot above the implementation, which is Mid's
inherited copy, not Root's declaration - and throws when nothing overrides
`m`, because the slot's value (the would-be `methodBody`) is NULL. -/
theorem c8_baseMethod_amended (a : Nat) (h : a ≠ 0) :
    sjBaseMethod (vtLeaf a) mIdx = Except.ok ⟨some vtMid, Ptr.null⟩ ∧
    sjBaseMethod (vtLeaf 0) mIdx =
      Except.error "sjInheritedMethod: vtMethod does not belong to vt." := by
  constructor
  · simp [sjBaseMethod, sjBaseMethodGo, sjInheritedMethod, inhScan, natToPtr, slotEqPtr,
      vtLeaf, vtMid, vtRoot, vtObject, mIdx, Vt.slots, Vt.className, h]
  · rfl

/-- C8 witness: the amended statement at the concrete body address 50. -/
theorem c8_baseMethod_amended_witness :
    sjBaseMethod (vtLeaf 50) mIdx = Except.ok ⟨some vtMid, Ptr.null⟩ ∧
    sjBaseMethod (vtLeaf 0) mIdx =
      Except.error "sjInheritedMethod: vtMethod does not belong to vt." :=
  c8_baseMethod_amended 50 (by decide)

theorem leaveTry_state (s : SxState) (ev : List Event) :
    (leaveTry s ev).1.heapFreed = s.heapFreed ∧
    (leaveTry s ev).1.dtorCalled = s.dtorCalled := by
  unfold leaveTry
  cases hc : s.contexts with
  | nil => exact ⟨rfl, rfl⟩
  | cons c rest =>
    dsimp only
    split
    · split
      next k hk =>
        have h := _throw_state { s with contexts := rest }
          { code := s.lastJumpCode, uncatchable := false, extra := none }
        exact ⟨h.2.2.1, h.2.2.2⟩
      next n hn =>
        have h := _throw_state { s with contexts := rest }
          { code := s.lastJumpCode, uncatchable := false, extra := none }
        exact ⟨h.2.2.1, h.2.2.2⟩
    · exact ⟨rfl, rfl⟩

theorem sxRethrow_zero_jump (s : SxState) (h1 : s.contexts ≠ [])
    (h2 : s.lastJumpCode = 0) (h3 : topCaught s < FINALLY_THRESHOLD) :
    (sxRethrow s { code := 0, uncatchable := false, extra := none }).2 =
      Transfer.jump 1 := by
  unfold sxRethrow
  rw [if_pos ⟨List.length_pos.mpr h1, h2, h3⟩]
  rw [if_pos (by decide)]
  rw [_throw_jump s _ h1]
  dsimp only
  rw [h2]
  rfl

theorem performAct_reth_zero (s : SxState) (fr : List Nat)
    (h1 : s.contexts ≠ []) (h2 : s.lastJumpCode = 0)
    (h3 : topCaught s < FINALLY_THRESHOLD) :
    performAct s ⟨fr, ActKind.reth { code := 0, uncatchable := false, extra := none }⟩ =
      ((sxRethrow { s with heapFreed := s.heapFreed ++ fr }
          { code := 0, uncatchable := false, extra := none }).1,
        some (Transfer.jump 1)) := by
  unfold performAct
  dsimp only
  rw [sxRethrow_zero_jump { s with heapFreed := s.heapFreed ++ fr } h1 h2 h3]

/-- The run of `sjNew`'s protected region when the constructor throws:
the catchall claims, frees the allocated block, and rethrows; the region
propagates jump code 1 to the caller's frame, having freed `a` exactly
once and never touched a destructor. -/
theorem ctorRegion_throw_run (s : SxState) (a : Nat) (e : SxTraceEntry)
    (hcap : s.contexts.length < MAX_TRY_CATCH) (hctx : s.contexts ≠ []) :
    ∃ s2, runRegion s (ctorRegion (CtorBeh.thr e) a) =
        (s2, Outcome.thrownOut 1, [Event.bodyRun, Event.catchRun 0]) ∧
      s2.heapFreed = s.heapFreed ++ [a] ∧
      s2.dtorCalled = s.dtorCalled := by
  unfold runRegion
  rw [if_neg (by omega)]
  rw [show (16 : Nat) = 15 + 1 from rfl]
  rw [runSx_entry_body 15 _ _ [] (by show ¬ (1000 : Nat) ≤ 0; omega)]
  rw [List.nil_append]
  have hpa : performAct { { s with contexts := 0 :: s.contexts } with lastJumpCode := 0 }
      (ctorRegion (CtorBeh.thr e) a).bodyAct =
      ((sxThrow { { { s with contexts := 0 :: s.contexts } with lastJumpCode := 0 } with
          heapFreed := s.heapFreed ++ [] } e).1,
        some (Transfer.jump (normCode e.code))) := by
    unfold ctorRegion performAct
    dsimp only
    rw [sxThrow_jump _ e (by exact List.cons_ne_nil _ _)]
  rw [hpa]
  dsimp only
  have hS1 := sxThrow_state { { { s with contexts := 0 :: s.contexts } with
    lastJumpCode := 0 } with heapFreed := s.heapFreed ++ [] } e
  set S1 : SxState := (sxThrow { { { s with contexts := 0 :: s.contexts } with
    lastJumpCode := 0 } with heapFreed := s.heapFreed ++ [] } e).1 with hS1def
  have hS1c : S1.contexts = 0 :: s.contexts := hS1.1
  have hS1h : S1.heapFreed = s.heapFreed := by
    rw [hS1.2.2.1]
    exact List.append_nil _
  have hS1d : S1.dtorCalled = s.dtorCalled := hS1.2.2.2
  rw [show (15 : Nat) = 14 + 1 from rfl]
  rw [runSx_entry_dispatch 14 S1 _ (normCode e.code) [Event.bodyRun]
    (by rw [topCaught_of_cons S1 0 s.contexts hS1c]; omega)
    (normCode_ne_zero e.code)]
  rw [topCaught_of_cons S1 0 s.contexts hS1c]
  rw [show dispatch (ctorRegion (CtorBeh.thr e) a).clauses 0 (normCode e.code) =
    (some 0, 1, 0) from rfl]
  dsimp only
  have hsCc : ({ setTopCaught { S1 with lastJumpCode := normCode e.code } 1 with
      lastJumpCode := (0 : Int) } : SxState).contexts = 1 :: s.contexts := by
    simp only [setTopCaught]
    rw [hS1c]
  set sC : SxState := { setTopCaught { S1 with lastJumpCode := normCode e.code } 1 with
    lastJumpCode := (0 : Int) } with hsCdef
  have hpc : performAct sC (ctorRegion (CtorBeh.thr e) a).catchAct =
      ((sxRethrow { sC with heapFreed := sC.heapFreed ++ [a] }
          { code := 0, uncatchable := false, extra := none }).1,
        some (Transfer.jump 1)) := by
    have h1 : sC.contexts ≠ [] := by
      rw [hsCc]
      exact List.cons_ne_nil _ _
    have h3 : topCaught sC < FINALLY_THRESHOLD := by
      rw [topCaught_of_cons sC 1 s.contexts hsCc]
      decide
    exact performAct_reth_zero sC [a] h1 rfl h3
  rw [hpc]
  dsimp only
  have hS2 := sxRethrow_state { sC with heapFreed := sC.heapFreed ++ [a] }
    { code := 0, uncatchable := false, extra := none }
  set S2 : SxState := (sxRethrow { sC with heapFreed := sC.heapFreed ++ [a] }
    { code := 0, uncatchable := false, extra := none }).1 with hS2def
  have hS2c : S2.contexts = 1 :: s.contexts := by
    rw [hS2.1]
    show sC.contexts = 1 :: s.contexts
    exact hsCc
  have hS2h : S2.heapFreed = s.heapFreed ++ [a] := by
    rw [hS2.2.2.1]
    show S1.heapFreed ++ [a] = s.heapFreed ++ [a]
    rw [hS1h]
  have hS2d : S2.dtorCalled = s.dtorCalled := by
    rw [hS2.2.2.2]
    exact hS1d
  rw [show (14 : Nat) = 13 + 1 from rfl]
  rw [runSx_entry_dispatch 13 S2 _ 1 ([Event.bodyRun] ++ [Event.catchRun 0])
    (by rw [topCaught_of_cons S2 1 s.contexts hS2c]; omega) (by omega)]
  rw [topCaught_of_cons S2 1 s.contexts hS2c]
  rw [show dispatch (ctorRegion (CtorBeh.thr e) a).clauses 1 1 = (none, 2, 1) from rfl]
  dsimp only
  rw [show (13 : Nat) = 12 + 1 from rfl]
  rw [runSx_finalize_none 12 _ _ _ rfl]
  have hs3c : ({ setTopCaught { S2 with lastJumpCode := (1 : Int) } 2 with
      lastJumpCode := (1 : Int) } : SxState).contexts = 2 :: s.contexts := by
    simp only [setTopCaught]
    rw [hS2c]
  set s3 : SxState := { setTopCaught { S2 with lastJumpCode := (1 : Int) } 2 with
    lastJumpCode := (1 : Int) } with hs3def
  refine ⟨(leaveTry s3 ([Event.bodyRun] ++ [Event.catchRun 0])).1, ?_, ?_, ?_⟩
  · have ho : (leaveTry s3 ([Event.bodyRun] ++ [Event.catchRun 0])).2.1 =
        Outcome.thrownOut 1 := by
      have h := leaveTry_thrown s3 ([Event.bodyRun] ++ [Event.catchRun 0]) 2 s.contexts
        hs3c hctx (by show (1 : Int) ≠ 0; decide)
      rw [h]
      rfl
    have hev := leaveTry_events s3 ([Event.bodyRun] ++ [Event.catchRun 0])
    exact Prod.ext rfl (Prod.ext ho hev)
  · rw [(leaveTry_state s3 _).1]
    show S2.heapFreed = s.heapFreed ++ [a]
    exact hS2h
  · rw [(leaveTry_state s3 _).2]
    show S2.dtorCalled = s.dtorCalled
    exact hS2d

theorem ofTransfer_ne_ret (t : Transfer) (x : Nat) :
    ofTransfer t ≠ SjNewOut.ret x := by
  cases t with
  | jump k => exact fun hx => SjNewOut.noConfusion hx
  | exitP n => exact fun hx => SjNewOut.noConfusion hx

theorem ctorRegion_ret_preserves (s : SxState) (o : Option Nat) (a : Nat) :
    (runRegion s (ctorRegion (CtorBeh.ret o) a)).1.heapFreed = s.heapFreed ∧
    (runRegion s (ctorRegion (CtorBeh.ret o) a)).1.dtorCalled = s.dtorCalled := by
  unfold runRegion
  by_cases hcap : MAX_TRY_CATCH ≤ s.contexts.length
  · rw [if_pos hcap]
    exact ⟨rfl, rfl⟩
  · rw [if_neg hcap]
    rw [show (16 : Nat) = 15 + 1 from rfl]
    rw [runSx_entry_body 15 _ _ [] (by show ¬ (1000 : Nat) ≤ 0; omega)]
    have hpa : performAct { { s with contexts := 0 :: s.contexts } with lastJumpCode := 0 }
        (ctorRegion (CtorBeh.ret o) a).bodyAct =
        ({ { { s with contexts := 0 :: s.contexts } with lastJumpCode := 0 } with
            heapFreed := s.heapFreed ++ [] }, none) := rfl
    rw [hpa]
    dsimp only
    rw [show (15 : Nat) = 14 + 1 from rfl]
    rw [runSx_finalize_none 14 _ _ _ rfl]
    refine ⟨?_, ?_⟩
    · rw [(leaveTry_state _ _).1]
      exact List.append_nil _
    · rw [(leaveTry_state _ _).2]

/-- C9: if allocation in `sjNew` succeeds but the constructor throws, the
`catchall` in `sjNew` frees the allocated object exactly once, the
exception propagates out of `sjNew` (it never returns normally), the
destructor is not invoked, and no execution both frees the allocation and
returns it to the caller. -/
theorem c9_ctor_failure_frees_once (s : SxState) (a : Nat) (e : SxTraceEntry)
    (auto : Nat → Bool)
    (hcap : s.contexts.length < MAX_TRY_CATCH) (hctx : s.contexts ≠ []) :
    (sjNew s (some a) (CtorBeh.thr e) auto).1.heapFreed = s.heapFreed ++ [a] ∧
    (∃ c, (sjNew s (some a) (CtorBeh.thr e) auto).2 = SjNewOut.thrownOut c) ∧
    (sjNew s (some a) (CtorBeh.thr e) auto).1.dtorCalled = s.dtorCalled ∧
    (∀ beh auto2, (sjNew s (some a) beh auto2).2 = SjNewOut.ret a →
      (sjNew s (some a) beh auto2).1.heapFreed = s.heapFreed) := by
  obtain ⟨s2, hrun, hh, hd⟩ := ctorRegion_throw_run s a e hcap hctx
  refine ⟨?_, ?_, ?_, ?_⟩
  · simp only [sjNew]
    rw [hrun]
    exact hh
  · refine ⟨1, ?_⟩
    simp only [sjNew]
    rw [hrun]
  · simp only [sjNew]
    rw [hrun]
    exact hd
  · intro beh auto2 hret
    cases beh with
    | thr e2 =>
      exfalso
      simp only [sjNew] at hret
      rcases ho : (runRegion s (ctorRegion (CtorBeh.thr e2) a)).2.1 with _ | c | n
      · rw [ho] at hret
        exact SjNewOut.noConfusion hret
      · rw [ho] at hret
        exact SjNewOut.noConfusion hret
      · rw [ho] at hret
        exact SjNewOut.noConfusion hret
    | ret o =>
      simp only [sjNew] at hret ⊢
      rcases ho : (runRegion s (ctorRegion (CtorBeh.ret o) a)).2.1 with _ | c | n
      · rw [ho] at hret
        dsimp only at hret ⊢
        by_cases hoa : o = some a
        · rw [if_pos hoa] at hret ⊢
          exact (ctorRegion_ret_preserves s o a).1
        · rw [if_neg hoa] at hret
          exfalso
          cases o with
          | none =>
            dsimp only at hret
            exact ofTransfer_ne_ret _ _ hret
          | some p =>
            dsimp only at hret
            by_cases hau : auto2 p = true
            · rw [if_pos hau] at hret
              dsimp only at hret
              apply hoa
              injection hret with h
              rw [h]
            · rw [if_neg hau] at hret
              dsimp only at hret
              exact ofTransfer_ne_ret _ _ hret
      · rw [ho] at hret
        exact SjNewOut.noConfusion hret
      · rw [ho] at hret
        exact SjNewOut.noConfusion hret

theorem c9_ctor_failure_frees_once_witness :
    (([0] : List Nat).length < MAX_TRY_CATCH ∧ ([0] : List Nat) ≠ []) ∧
    ((sjNew ⟨[0], 0, [], false, [], [], []⟩ (some 5)
        (CtorBeh.thr ⟨7, false, none⟩) (fun _ => false)).1.heapFreed = [] ++ [5] ∧
      (∃ c, (sjNew ⟨[0], 0, [], false, [], [], []⟩ (some 5)
        (CtorBeh.thr ⟨7, false, none⟩) (fun _ => false)).2 = SjNewOut.thrownOut c) ∧
      (sjNew ⟨[0], 0, [], false, [], [], []⟩ (some 5)
        (CtorBeh.thr ⟨7, false, none⟩) (fun _ => false)).1.dtorCalled = [] ∧
      (∀ beh auto2, (sjNew ⟨[0], 0, [], false, [], [], []⟩ (some 5) beh auto2).2 =
          SjNewOut.ret 5 →
        (sjNew ⟨[0], 0, [], false, [], [], []⟩ (some 5) beh auto2).1.heapFreed = [])) :=
  ⟨⟨by decide, by decide⟩,
    c9_ctor_failure_frees_once ⟨[0], 0, [], false, [], [], []⟩ 5 ⟨7, false, none⟩
      (fun _ => false) (by decide) (by decide)⟩
